import Mathlib

/-! Stats rendering (`source/server/admin/stats_render.cc`).

A shallow embedding of the three stats renderers (text, JSON, Prometheus) and
proofs about them.

Conventions of the embedding.

* `std::string` / `absl::string_view` are Lean `String`s.  Every pattern the
  code searches for is a single ASCII character, so on well-formed UTF-8 the
  byte-wise C++ operations and the character-wise Lean ones coincide.
* `uint64_t` values are natural numbers; the code only prints them.
* `Buffer::Instance& response` is threaded explicitly: an operation takes the
  current contents and returns the new contents.
* Collaborators whose code lives outside `stats_render.cc` (the JSON string
  sanitizer, the protobuf-to-JSON encoder, the `fmt` number formatters, the
  `ASSERT` macro switch, the custom-namespace registry) are parameters.
-/

namespace Envoy

/-! ## Data model -/

/-- An IEEE-754 binary64 value, represented by its 64-bit pattern. -/
structure Double where
  bits : Nat
deriving DecidableEq, Repr

/-- The test `std::isnan`: exponent field all ones and a non-zero fraction. -/
def Double.isnan (d : Double) : Bool :=
  (d.bits / 2 ^ 52) % 2 ^ 11 == 2047 && d.bits % 2 ^ 52 != 0

/-- The way a call can abort instead of returning. -/
inductive Fault where
  | assertionFailure
  | outOfRange
deriving DecidableEq, Repr

/-- The enum `Utility::HistogramBucketsMode`. -/
inductive HistogramBucketsMode where
  | NoBuckets
  | Cumulative
  | Disjoint
deriving DecidableEq, Repr

/-- The struct `Stats::Tag`. -/
structure Tag where
  name_ : String
  value_ : String
deriving DecidableEq, Repr

/-- The view `Stats::HistogramStatistics`: precomputed results only; the field
`computeDisjointBuckets` is the vector the method of that name returns. -/
structure HistogramStatistics where
  supportedQuantiles : List Double
  computedQuantiles : List Double
  supportedBuckets : List Double
  computedBuckets : List Nat
  computeDisjointBuckets : List Nat
  sampleCount : Nat
  sampleSum : Double
deriving DecidableEq, Repr

/-- The interface `Stats::ParentHistogram` as the renderers use it. -/
structure ParentHistogram where
  tags : List Tag
  used : Bool
  intervalStatistics : HistogramStatistics
  cumulativeStatistics : HistogramStatistics
  quantileSummary : String
  bucketSummary : String
deriving DecidableEq, Repr

/-- A `Stats::HistogramSharedPtr`: the pointee is a `ParentHistogram` or some
other histogram, which is what the `dynamic_cast` distinguishes. -/
inductive Histogram where
  | parent (h : ParentHistogram)
  | other (tags : List Tag)
deriving DecidableEq, Repr

/-- A gauge or a counter, as `generateNumericOutput` reads it. -/
structure NumericMetric where
  tags : List Tag
  value : Nat
deriving DecidableEq, Repr

/-- A `Stats::TextReadout`. -/
structure TextReadout where
  tags : List Tag
  value : String
deriving DecidableEq, Repr

/-- A `ProtobufWkt::Value` (with `Struct` and `ListValue` inlined). -/
inductive ProtoValue where
  | nullValue
  | numberValue (d : Double)
  | stringValue (s : String)
  | structValue (fields : List (String × ProtoValue))
  | listValue (values : List ProtoValue)

/-- The alias `ProtoMap`: the field map of a `ProtobufWkt::Struct`. -/
abbrev ProtoMap := List (String × ProtoValue)

/-- The assignment `fields[key] = v`: overwrite the entry or add one. -/
def ProtoMap.set : ProtoMap → String → ProtoValue → ProtoMap
  | [], key, v => [(key, v)]
  | (k, w) :: rest, key, v =>
    if k = key then (k, v) :: rest else (k, w) :: ProtoMap.set rest key v

/-- The collaborators of the renderers that live outside `stats_render.cc`. -/
structure Collaborators where
  /-- The call `Json::sanitize(buffer, str)`. -/
  jsonSanitize : String → String
  /-- The call `MessageUtil::getJsonStringFromMessageOrError(msg, false, true)`. -/
  getJsonString : ProtoValue → String
  /-- The call `fmt::format("{:g}", d)`. -/
  formatG : Double → String
  /-- The call `fmt::format("{0:.32g}", d)`. -/
  formatG32 : Double → String
  /-- The conversion of a `uint64_t` to `double` inside `ValueUtil::numberValue`. -/
  toDouble : Nat → Double
  /-- The product `quantile * 100`. -/
  timesHundred : Double → Double
  /-- The list `HistogramStatisticsImpl().supportedQuantiles()`. -/
  defaultSupportedQuantiles : List Double
  /-- Whether the `ASSERT` macro is compiled in (debug build). -/
  assertsEnabled : Bool

/-- The macro `ASSERT(cond)`: aborts when compiled in and `cond` is false. -/
def ASSERT (env : Collaborators) (cond : Bool) : Except Fault Unit :=
  if env.assertsEnabled && !cond then .error .assertionFailure else .ok ()

/-- The registry `Stats::CustomStatNamespaces`, seen through its one query. -/
structure CustomStatNamespaces where
  stripRegisteredPrefix : String → Option String

/-! ## Output sink -/

/-- The call `response.add(data)`. -/
def Buffer.add (response data : String) : String :=
  response ++ data

/-- The call `response.addFragments({...})`. -/
def Buffer.addFragments (response : String) (fragments : List String) : String :=
  response ++ String.join fragments

/-- The decimal text of a `uint64_t` (`std::to_string`, `absl::StrCat`). -/
def decimal (value : Nat) : String :=
  Nat.repr value

/-- The element access `v[i]` of a `std::vector`: reading at or past `size()`
is undefined behaviour, reported here as a fault. -/
def vectorAt {α : Type} (v : List α) (i : Nat) : Except Fault α :=
  match v[i]? with
  | some x => .ok x
  | none => .error .outOfRange

/-- The loop `for (size_t i = start; i < start + remaining; ++i) body`, with the
loop-carried variables in `s`. -/
def forLoop {σ : Type} (body : Nat → σ → Except Fault σ) : Nat → Nat → σ → Except Fault σ
  | _, 0, s => .ok s
  | i, remaining + 1, s =>
    match body i s with
    | .ok s' => forLoop body (i + 1) remaining s'
    | .error e => .error e

/-- The call `absl::StrJoin(parts, separator)`. -/
def StrJoin : List String → String → String
  | [], _ => ""
  | [a], _ => a
  | a :: b :: rest, separator => a ++ separator ++ StrJoin (b :: rest) separator

/-- Among the substitutions whose non-empty `old` text starts at the head of
`s`, the one `absl::StrReplaceAll` applies: the longest, the first listed on a
tie. -/
def StrReplaceAll.pick (replacements : List (String × String)) (s : List Char) :
    Option (String × String) :=
  replacements.foldl
    (fun best sub =>
      if sub.1.data ≠ [] ∧ sub.1.data.isPrefixOf s = true then
        match best with
        | some b => if b.1.length < sub.1.length then some sub else some b
        | none => some sub
      else best)
    none

/-- The scan of `absl::StrReplaceAll`: `skip` characters of a matched `old`
text are still to be passed over; replacement text is emitted, never
re-scanned. -/
def StrReplaceAll.go (replacements : List (String × String)) : Nat → List Char → List Char
  | _, [] => []
  | skip + 1, _ :: rest => StrReplaceAll.go replacements skip rest
  | 0, c :: rest =>
    match StrReplaceAll.pick replacements (c :: rest) with
    | some sub => sub.2.data ++ StrReplaceAll.go replacements (sub.1.length - 1) rest
    | none => c :: StrReplaceAll.go replacements 0 rest

/-- The call `absl::StrReplaceAll(s, replacements)`. -/
def StrReplaceAll (s : String) (replacements : List (String × String)) : String :=
  ⟨StrReplaceAll.go replacements 0 s.data⟩

/-! ## Text renderer -/

/-- The class `StatsTextRender`: its only member is the bucket mode. -/
structure StatsTextRender where
  histogram_buckets_mode_ : HistogramBucketsMode
deriving DecidableEq, Repr

namespace StatsTextRender

/-- The overload `StatsTextRender::generate(response, name, uint64_t value)`. -/
def generateNumeric (_self : StatsTextRender) (response name : String) (value : Nat) : String :=
  Buffer.addFragments response [name, ": ", decimal value, "\n"]

/-- The overload `StatsTextRender::generate(response, name, const std::string& value)`. -/
def generateText (_self : StatsTextRender) (response name value : String) : String :=
  Buffer.addFragments response [name, ": \"", value, "\"\n"]

/-- The body of the loop of `StatsTextRender::addDisjointBuckets`; the state is
`bucket_summary`. -/
def disjointBucketBody (env : Collaborators) (supported_buckets : List Double)
    (disjoint_interval_buckets disjoint_cumulative_buckets : List Nat)
    (i : Nat) (bucket_summary : List String) : Except Fault (List String) := do
  let bucket_summary := if i != 0 then bucket_summary ++ [" "] else bucket_summary
  let b ← vectorAt supported_buckets i
  let x ← vectorAt disjoint_interval_buckets i
  let y ← vectorAt disjoint_cumulative_buckets i
  pure (bucket_summary ++
    ["B" ++ env.formatG b ++ "(" ++ decimal x ++ "," ++ decimal y ++ ")"])

/-- The function `StatsTextRender::addDisjointBuckets`. -/
def addDisjointBuckets (env : Collaborators) (name : String) (histogram : ParentHistogram)
    (response : String) : Except Fault String :=
  if !histogram.used then
    .ok (Buffer.addFragments response [name, ": No recorded values\n"])
  else do
    let response := Buffer.addFragments response [name, ": "]
    let interval_statistics := histogram.intervalStatistics
    let supported_buckets := interval_statistics.supportedBuckets
    let disjoint_interval_buckets := interval_statistics.computeDisjointBuckets
    let disjoint_cumulative_buckets := histogram.cumulativeStatistics.computeDisjointBuckets
    ASSERT env (disjoint_interval_buckets.length == disjoint_cumulative_buckets.length)
    ASSERT env (disjoint_cumulative_buckets.length == supported_buckets.length)
    let min_size := min disjoint_interval_buckets.length
      (min disjoint_cumulative_buckets.length supported_buckets.length)
    let bucket_summary ← forLoop
      (disjointBucketBody env supported_buckets disjoint_interval_buckets
        disjoint_cumulative_buckets) 0 min_size []
    pure (Buffer.addFragments response (bucket_summary ++ ["\n"]))

/-- The overload `StatsTextRender::generate(response, name, histogram)`. -/
def generateHistogram (env : Collaborators) (self : StatsTextRender) (response name : String)
    (histogram : ParentHistogram) : Except Fault String :=
  match self.histogram_buckets_mode_ with
  | .NoBuckets => .ok (Buffer.addFragments response [name, ": ", histogram.quantileSummary, "\n"])
  | .Cumulative => .ok (Buffer.addFragments response [name, ": ", histogram.bucketSummary, "\n"])
  | .Disjoint => addDisjointBuckets env name histogram response

/-- The function `StatsTextRender::finalize`. -/
def finalize (_self : StatsTextRender) (response : String) : String :=
  response

end StatsTextRender

/-! ## JSON renderer -/

def JsonNameTag : String := "\x7b\"name\":\""
def JsonValueTag : String := "\",\"value\":"
def JsonValueTagQuote : String := "\",\"value\":\""
def JsonCloseBrace : String := "\x7d"
def JsonQuoteCloseBrace : String := "\"\x7d"

/-- The data members of the class `StatsJsonRender`. -/
structure StatsJsonRender where
  histogram_buckets_mode_ : HistogramBucketsMode
  delim_ : String
  found_used_histogram_ : Bool
  histogram_array_ : List ProtoValue
  histograms_obj_ : ProtoMap
  histograms_obj_container_ : ProtoMap

namespace StatsJsonRender

/-- The constructor `StatsJsonRender::StatsJsonRender`: writes the preamble to
the response (the content-type header it also sets is not part of the sink). -/
def create (response : String) (histogram_buckets_mode : HistogramBucketsMode) :
    String × StatsJsonRender :=
  (Buffer.add response "\x7b\"stats\":[",
   { histogram_buckets_mode_ := histogram_buckets_mode
     delim_ := ""
     found_used_histogram_ := false
     histogram_array_ := []
     histograms_obj_ := []
     histograms_obj_container_ := [] })

/-- The overload `StatsJsonRender::generate(response, name, uint64_t value)`. -/
def generateNumeric (env : Collaborators) (self : StatsJsonRender) (response name : String)
    (value : Nat) : String × StatsJsonRender :=
  (Buffer.addFragments response
     [self.delim_, JsonNameTag, env.jsonSanitize name, JsonValueTag, decimal value,
      JsonCloseBrace],
   { self with delim_ := "," })

/-- The overload `StatsJsonRender::generate(response, name, const std::string& value)`. -/
def generateText (env : Collaborators) (self : StatsJsonRender) (response name value : String) :
    String × StatsJsonRender :=
  (Buffer.addFragments response
     [self.delim_, JsonNameTag, env.jsonSanitize name, JsonValueTagQuote,
      env.jsonSanitize value, JsonQuoteCloseBrace],
   { self with delim_ := "," })

/-- The expression `std::isnan(x) ? ValueUtil::nullValue() : ValueUtil::numberValue(x)`. -/
def quantileValue (x : Double) : ProtoValue :=
  if x.isnan then .nullValue else .numberValue x

/-- The body of the loop of `StatsJsonRender::summarizeBuckets`; the state is
`computed_quantile_value_array`. -/
def summarizeBody (computed_quantiles cumulative_quantiles : List Double)
    (i : Nat) (computed_quantile_value_array : List ProtoValue) :
    Except Fault (List ProtoValue) := do
  let interval ← vectorAt computed_quantiles i
  let cumulative ← vectorAt cumulative_quantiles i
  let computed_quantile_value : ProtoMap :=
    (ProtoMap.set [] "interval" (quantileValue interval)).set "cumulative"
      (quantileValue cumulative)
  pure (computed_quantile_value_array ++ [.structValue computed_quantile_value])

/-- The function `StatsJsonRender::summarizeBuckets`. -/
def summarizeBuckets (env : Collaborators) (self : StatsJsonRender) (name : String)
    (histogram : ParentHistogram) : Except Fault StatsJsonRender := do
  let self :=
    if !self.found_used_histogram_ then
      { self with
        histograms_obj_ := self.histograms_obj_.set "supported_quantiles"
          (.listValue (env.defaultSupportedQuantiles.map
            fun quantile => .numberValue (env.timesHundred quantile)))
        found_used_histogram_ := true }
    else self
  let interval_statistics := histogram.intervalStatistics
  let computed_quantiles := interval_statistics.computedQuantiles
  let cumulative_quantiles := histogram.cumulativeStatistics.computedQuantiles
  let min_size := min computed_quantiles.length
    (min cumulative_quantiles.length interval_statistics.supportedQuantiles.length)
  ASSERT env (min_size == computed_quantiles.length)
  ASSERT env (min_size == cumulative_quantiles.length)
  let computed_quantile_value_array ← forLoop
    (summarizeBody computed_quantiles cumulative_quantiles) 0 min_size []
  let computed_quantile : ProtoMap :=
    (ProtoMap.set [] "name" (.stringValue name)).set "values"
      (.listValue computed_quantile_value_array)
  pure { self with
    histogram_array_ := self.histogram_array_ ++ [.structValue computed_quantile] }

/-- The body of the loop of `StatsJsonRender::collectBuckets`; the state is
`bucket_array`. -/
def collectBody (env : Collaborators) (supported_buckets : List Double)
    (interval_buckets cumulative_buckets : List Nat)
    (i : Nat) (bucket_array : List ProtoValue) : Except Fault (List ProtoValue) := do
  let upper_bound ← vectorAt supported_buckets i
  let interval ← vectorAt interval_buckets i
  let cumulative ← vectorAt cumulative_buckets i
  let bucket : ProtoMap :=
    ((ProtoMap.set [] "upper_bound" (.numberValue upper_bound)).set "interval"
      (.numberValue (env.toDouble interval))).set "cumulative"
      (.numberValue (env.toDouble cumulative))
  pure (bucket_array ++ [.structValue bucket])

/-- The function `StatsJsonRender::collectBuckets`. -/
def collectBuckets (env : Collaborators) (self : StatsJsonRender) (name : String)
    (histogram : ParentHistogram) (interval_buckets cumulative_buckets : List Nat) :
    Except Fault StatsJsonRender := do
  let interval_statistics := histogram.intervalStatistics
  let supported_buckets := interval_statistics.supportedBuckets
  ASSERT env (interval_buckets.length == cumulative_buckets.length)
  ASSERT env (cumulative_buckets.length == supported_buckets.length)
  let min_size := min interval_buckets.length
    (min cumulative_buckets.length supported_buckets.length)
  let bucket_array ← forLoop
    (collectBody env supported_buckets interval_buckets cumulative_buckets) 0 min_size []
  let histogram_obj : ProtoMap :=
    (ProtoMap.set [] "name" (.stringValue name)).set "buckets" (.listValue bucket_array)
  pure { self with histogram_array_ := self.histogram_array_ ++ [.structValue histogram_obj] }

/-- The overload `StatsJsonRender::generate(response, name, histogram)`: the
response buffer is an unnamed, unused parameter. -/
def generateHistogram (env : Collaborators) (self : StatsJsonRender) (response name : String)
    (histogram : ParentHistogram) : Except Fault (String × StatsJsonRender) :=
  match self.histogram_buckets_mode_ with
  | .NoBuckets => (summarizeBuckets env self name histogram).map fun s => (response, s)
  | .Cumulative =>
    (collectBuckets env self name histogram histogram.intervalStatistics.computedBuckets
      histogram.cumulativeStatistics.computedBuckets).map fun s => (response, s)
  | .Disjoint =>
    (collectBuckets env self name histogram
      histogram.intervalStatistics.computeDisjointBuckets
      histogram.cumulativeStatistics.computeDisjointBuckets).map fun s => (response, s)

/-- The message `StatsJsonRender::finalize` assembles and hands to the encoder
when `histogram_array_` is not empty. -/
def histogramsDocument (env : Collaborators) (self : StatsJsonRender) :
    Except Fault ProtoValue :=
  if self.found_used_histogram_ then do
    ASSERT env (self.histogram_buckets_mode_ == .NoBuckets)
    let histograms_obj := self.histograms_obj_.set "computed_quantiles"
      (.listValue self.histogram_array_)
    pure (.structValue
      (self.histograms_obj_container_.set "histograms" (.structValue histograms_obj)))
  else do
    ASSERT env (self.histogram_buckets_mode_ != .NoBuckets)
    pure (.structValue
      (self.histograms_obj_container_.set "histograms" (.listValue self.histogram_array_)))

/-- The function `StatsJsonRender::finalize`. -/
def finalize (env : Collaborators) (self : StatsJsonRender) (response : String) :
    Except Fault String :=
  if self.histogram_array_.length > 0 then do
    let document ← histogramsDocument env self
    let str := env.getJsonString document
    let response :=
      if !str.isEmpty then Buffer.addFragments response [self.delim_, str] else response
    pure (Buffer.add response "]\x7d")
  else
    .ok (Buffer.add response "]\x7d")

end StatsJsonRender

/-- One `generate` call the request driver makes on the JSON renderer. -/
inductive JsonCall where
  | numeric (name : String) (value : Nat)
  | text (name value : String)
  | histogram (name : String) (histogram : ParentHistogram)

/-- Dispatch of one driver call to the matching `generate` overload. -/
def StatsJsonRender.generate (env : Collaborators) (state : String × StatsJsonRender) :
    JsonCall → Except Fault (String × StatsJsonRender)
  | .numeric name value => .ok (state.2.generateNumeric env state.1 name value)
  | .text name value => .ok (state.2.generateText env state.1 name value)
  | .histogram name histogram => state.2.generateHistogram env state.1 name histogram

/-- The driver's calls in order, starting from a given renderer state. -/
def StatsJsonRender.generateAll (env : Collaborators) :
    String × StatsJsonRender → List JsonCall → Except Fault (String × StatsJsonRender)
  | state, [] => .ok state
  | state, call :: calls =>
    match StatsJsonRender.generate env state call with
    | .ok state' => StatsJsonRender.generateAll env state' calls
    | .error e => .error e

/-- A whole JSON request on an empty sink: construct, `generate` once per call
in order, `finalize` once; the result is the sink's contents. -/
def renderJson (env : Collaborators) (histogram_buckets_mode : HistogramBucketsMode)
    (calls : List JsonCall) : Except Fault String :=
  match StatsJsonRender.generateAll env (StatsJsonRender.create "" histogram_buckets_mode) calls with
  | .ok state => state.2.finalize env state.1
  | .error e => .error e

/-! ## Prometheus renderer: names and values -/

namespace PrometheusStatsRender

/-- The character class `[a-zA-Z0-9_]`. -/
def isNameChar (c : Char) : Bool :=
  c.isAlphanum || c == '_'

/-- The pattern `prometheusRegex()`, `[^a-zA-Z0-9_]`, on one character. -/
def prometheusRegex (c : Char) : Bool :=
  !isNameChar c

/-- The call `matcher.replaceAll(name, substitution)` for a matcher that is a
one-character class: every matching character is replaced. -/
def replaceAll (matcher : Char → Bool) (name substitution : String) : String :=
  String.join (name.data.map fun c => if matcher c then substitution else String.singleton c)

/-- The function `PrometheusStatsRender::sanitizeName`. -/
def sanitizeName (name : String) : String :=
  replaceAll prometheusRegex name "_"

/-- The function `PrometheusStatsRender::metricName`. -/
def metricName (extracted_name : String) (custom_namespaces : CustomStatNamespaces) :
    Option String :=
  match custom_namespaces.stripRegisteredPrefix extracted_name with
  | some custom_namespace_stripped =>
    let sanitized_name := sanitizeName custom_namespace_stripped
    if sanitized_name.isEmpty || (sanitized_name.data.head?.any Char.isDigit) then
      none
    else
      some sanitized_name
  | none => some ("envoy_" ++ sanitizeName extracted_name)

/-- The function `PrometheusStatsRender::sanitizeValue`. -/
def sanitizeValue (value : String) : String :=
  StrReplaceAll value [("\\", "\\\\"), ("\n", "\\n"), ("\"", "\\\"")]

/-- The function `PrometheusStatsRender::formattedTags`. -/
def formattedTags (tags : List Tag) : String :=
  StrJoin (tags.map fun tag => sanitizeName tag.name_ ++ "=\"" ++ sanitizeValue tag.value_ ++ "\"")
    ","

/-- The template `PrometheusStatsRender::outputStatType`. -/
def outputStatType {StatType : Type} (response : String) (metrics : List StatType)
    (prefixed_tag_extracted_name : String)
    (generate_output : StatType → String → Except Fault String) (type : String) :
    Except Fault String :=
  metrics.foldlM
    (fun response metric =>
      (generate_output metric prefixed_tag_extracted_name).map fun out => Buffer.add response out)
    (Buffer.add response ("# TYPE " ++ prefixed_tag_extracted_name ++ " " ++ type ++ "\n"))

/-- The template `PrometheusStatsRender::generateNumericOutput`. -/
def generateNumericOutput (metric : NumericMetric) (prefixed_tag_extracted_name : String) :
    String :=
  let tags := formattedTags metric.tags
  prefixed_tag_extracted_name ++ "\x7b" ++ tags ++ "\x7d " ++ decimal metric.value ++ "\n"

/-- The function `PrometheusStatsRender::generateTextReadoutOutput`. -/
def generateTextReadoutOutput (metric : TextReadout) (prefixed_tag_extracted_name : String) :
    String :=
  let tags := metric.tags ++ [{ name_ := "text_value", value_ := metric.value }]
  let formTags := formattedTags tags
  prefixed_tag_extracted_name ++ "\x7b" ++ formTags ++ "\x7d 0\n"

/-- The body of the bucket loop of `generateHistogramOutput`; the state is
`output`. -/
def histogramBucketBody (env : Collaborators) (prefixed_tag_extracted_name hist_tags : String)
    (supported_buckets : List Double) (computed_buckets : List Nat)
    (i : Nat) (output : String) : Except Fault String := do
  let bucket ← vectorAt supported_buckets i
  let value ← vectorAt computed_buckets i
  pure (output ++ (prefixed_tag_extracted_name ++ "_bucket\x7b" ++ hist_tags ++ "le=\"" ++
    env.formatG32 bucket ++ "\"\x7d " ++ decimal value ++ "\n"))

/-- The function `PrometheusStatsRender::generateHistogramOutput`. -/
def generateHistogramOutput (env : Collaborators) (metric : Histogram)
    (prefixed_tag_extracted_name : String) : Except Fault String :=
  match metric with
  | .parent parent_histogram => do
    let tags := formattedTags parent_histogram.tags
    let hist_tags := if parent_histogram.tags.isEmpty then "" else tags ++ ","
    let stats := parent_histogram.cumulativeStatistics
    let supported_buckets := stats.supportedBuckets
    let computed_buckets := stats.computedBuckets
    let output ← forLoop
      (histogramBucketBody env prefixed_tag_extracted_name hist_tags supported_buckets
        computed_buckets) 0 supported_buckets.length ""
    let output := output ++ (prefixed_tag_extracted_name ++ "_bucket\x7b" ++ hist_tags ++
      "le=\"+Inf\"\x7d " ++ decimal stats.sampleCount ++ "\n")
    let output := output ++ (prefixed_tag_extracted_name ++ "_sum\x7b" ++ tags ++ "\x7d " ++
      env.formatG32 stats.sampleSum ++ "\n")
    let output := output ++ (prefixed_tag_extracted_name ++ "_count\x7b" ++ tags ++ "\x7d " ++
      decimal stats.sampleCount ++ "\n")
    pure output
  | .other _ => .ok ""

/-- The overload `PrometheusStatsRender::generate` for gauges. -/
def generateGauge (response prefixed_tag_extracted_name : String) (gauge : List NumericMetric) :
    Except Fault String :=
  outputStatType response gauge prefixed_tag_extracted_name
    (fun metric name => .ok (generateNumericOutput metric name)) "gauge"

/-- The overload `PrometheusStatsRender::generate` for counters. -/
def generateCounter (response prefixed_tag_extracted_name : String)
    (counter : List NumericMetric) : Except Fault String :=
  outputStatType response counter prefixed_tag_extracted_name
    (fun metric name => .ok (generateNumericOutput metric name)) "counter"

/-- The overload `PrometheusStatsRender::generate` for text readouts. -/
def generateTextReadout (response prefixed_tag_extracted_name : String)
    (text_readout : List TextReadout) : Except Fault String :=
  outputStatType response text_readout prefixed_tag_extracted_name
    (fun metric name => .ok (generateTextReadoutOutput metric name)) "gauge"

/-- The overload `PrometheusStatsRender::generate` for histograms. -/
def generateHistogram (env : Collaborators) (response prefixed_tag_extracted_name : String)
    (histogram : List Histogram) : Except Fault String :=
  outputStatType response histogram prefixed_tag_extracted_name
    (generateHistogramOutput env) "histogram"

/-- The function `PrometheusStatsRender::finalize`. -/
def finalize (response : String) : String :=
  response

end PrometheusStatsRender

/-! ## Specification-side vocabulary -/

/-- What `sanitizeName` does to one character. -/
def PrometheusStatsRender.sanitizeChar (c : Char) : Char :=
  if PrometheusStatsRender.isNameChar c then c else '_'

/-- The escaped text of one character of a tag value: backslash, newline and
double quote get a two-character escape, any other character stands for
itself. -/
def PrometheusStatsRender.escapeChar (c : Char) : String :=
  if c = '\\' then "\\\\"
  else if c = '\n' then "\\n"
  else if c = '"' then "\\\""
  else String.singleton c

/-- Every double quote of the text has a backslash right before it. -/
def quotesEscaped (r : List Char) : Prop :=
  ∀ i, r[i]? = some '"' → ∃ j, i = j + 1 ∧ r[j]? = some '\\'

/-- The string starts with a decimal digit. -/
def startsWithDigit (s : String) : Prop :=
  ∃ d rest, s.data = d :: rest ∧ d.isDigit = true

/-- A registry holding the single custom namespace `ns`: a name `ns.<rest>`
is stripped to `<rest>`. -/
def sampleNamespaces : CustomStatNamespaces where
  stripRegisteredPrefix name :=
    match name.data with
    | 'n' :: 's' :: '.' :: rest => some ⟨rest⟩
    | _ => none

/-- The text of the few doubles the examples use: `0.5`, `1`, `5`, `12.5`. -/
def sampleFormat (d : Double) : String :=
  if d.bits = 0x3FE0000000000000 then "0.5"
  else if d.bits = 0x3FF0000000000000 then "1"
  else if d.bits = 0x4014000000000000 then "5"
  else if d.bits = 0x4029000000000000 then "12.5"
  else "nan"

/-- A JSON string escaper for the examples, one character at a time: quote and
backslash get a backslash, control characters become `\u00XX`. -/
def sampleSanitizeChar (c : Char) : List Char :=
  if c = '"' then ['\\', '"']
  else if c = '\\' then ['\\', '\\']
  else if c.toNat < 0x20 then
    ['\\', 'u', '0', '0', Nat.digitChar (c.toNat / 16), Nat.digitChar (c.toNat % 16)]
  else [c]

/-- A stand-in for `Json::sanitize` in the examples. -/
def sampleSanitize (s : String) : String :=
  ⟨(s.data.map sampleSanitizeChar).flatten⟩

/-- Collaborators for the examples: the escaper above, an encoder that answers
a fixed object, asserts compiled in. -/
def sampleCollaborators : Collaborators where
  jsonSanitize := sampleSanitize
  getJsonString _ := "\x7b\"histograms\":[]\x7d"
  formatG := sampleFormat
  formatG32 := sampleFormat
  toDouble _ := ⟨0⟩
  timesHundred := id
  defaultSupportedQuantiles := []
  assertsEnabled := true

/-- Histogram statistics with boundaries `[0.5, 1, 5]`, cumulative counts
`[2, 5, 7]`, eight samples summing to `12.5`. -/
def sampleStatistics : HistogramStatistics where
  supportedQuantiles := []
  computedQuantiles := []
  supportedBuckets := [⟨0x3FE0000000000000⟩, ⟨0x3FF0000000000000⟩, ⟨0x4014000000000000⟩]
  computedBuckets := [2, 5, 7]
  computeDisjointBuckets := [2, 3, 2]
  sampleCount := 8
  sampleSum := ⟨0x4029000000000000⟩

/-- A used parent histogram with one tag and the statistics above. -/
def sampleHistogram : ParentHistogram where
  tags := [⟨"zone", "a"⟩]
  used := true
  intervalStatistics := sampleStatistics
  cumulativeStatistics := sampleStatistics
  quantileSummary := ""
  bucketSummary := ""

/-- A registry with no custom namespace at all. -/
def noNamespaces : CustomStatNamespaces where
  stripRegisteredPrefix _ := none

/-! ## JSON syntax (RFC 8259) -/

namespace Json

/-- The four JSON whitespace characters. -/
def isWhitespace (c : Char) : Bool :=
  c == ' ' || c == '\t' || c == '\n' || c == '\r'

/-- A run of JSON whitespace, possibly empty. -/
def Whitespace (l : List Char) : Prop :=
  ∀ c ∈ l, isWhitespace c = true

/-- A hexadecimal digit. -/
def isHex (c : Char) : Bool :=
  c.isDigit || ('a' ≤ c && c ≤ 'f') || ('A' ≤ c && c ≤ 'F')

/-- The characters allowed after a backslash, `u` apart. -/
def isEscapeLetter (c : Char) : Bool :=
  c == '"' || c == '\\' || c == '/' || c == 'b' || c == 'f' || c == 'n' || c == 'r' || c == 't'

/-- What may stand between the quotes of a JSON string: unescaped characters
(no quote, no backslash, no control character) and escape sequences. -/
inductive StringContents : List Char → Prop where
  | nil : StringContents []
  | plain (c : Char) (rest : List Char) :
      c ≠ '"' → c ≠ '\\' → 0x20 ≤ c.toNat → StringContents rest → StringContents (c :: rest)
  | escape (c : Char) (rest : List Char) :
      isEscapeLetter c = true → StringContents rest → StringContents ('\\' :: c :: rest)
  | unicode (a b c d : Char) (rest : List Char) :
      isHex a = true → isHex b = true → isHex c = true → isHex d = true →
      StringContents rest → StringContents ('\\' :: 'u' :: a :: b :: c :: d :: rest)

/-- One or more decimal digits. -/
def Digits (l : List Char) : Prop :=
  l ≠ [] ∧ ∀ c ∈ l, c.isDigit = true

/-- The integer part of a number: `0`, or digits not starting with `0`. -/
def IntPart (l : List Char) : Prop :=
  l = ['0'] ∨ ∃ d rest, l = d :: rest ∧ d.isDigit = true ∧ d ≠ '0' ∧ ∀ c ∈ rest, c.isDigit = true

/-- A JSON number: optional minus, integer part, optional fraction, optional
exponent. -/
def Number (l : List Char) : Prop :=
  ∃ sign int frac exp, l = sign ++ int ++ frac ++ exp ∧
    (sign = [] ∨ sign = ['-']) ∧ IntPart int ∧
    (frac = [] ∨ ∃ ds, frac = '.' :: ds ∧ Digits ds) ∧
    (exp = [] ∨ ∃ e sgn ds, exp = e :: (sgn ++ ds) ∧ (e = 'e' ∨ e = 'E') ∧
      (sgn = [] ∨ sgn = ['+'] ∨ sgn = ['-']) ∧ Digits ds)

/-- The three syntactic categories of the grammar below. -/
inductive Kind where
  | value
  | element
  | member

/-- The JSON grammar: `Derives k l` says the text `l` is a value, an element
(a value with whitespace around it) or an object member (`"key" : element`). -/
inductive Derives : Kind → List Char → Prop where
  | null : Derives .value ['n', 'u', 'l', 'l']
  | true : Derives .value ['t', 'r', 'u', 'e']
  | false : Derives .value ['f', 'a', 'l', 's', 'e']
  | number (l : List Char) : Number l → Derives .value l
  | string (l : List Char) : StringContents l → Derives .value ('"' :: (l ++ ['"']))
  | emptyArray (w : List Char) : Whitespace w → Derives .value ('[' :: (w ++ [']']))
  | array (x : List Char) (xs : List (List Char)) :
      Derives .element x → (∀ y ∈ xs, Derives .element y) →
      Derives .value ('[' :: (x ++ (xs.map fun y => ',' :: y).flatten ++ [']']))
  | emptyObject (w : List Char) : Whitespace w → Derives .value ('{' :: (w ++ ['}']))
  | object (m : List Char) (ms : List (List Char)) :
      Derives .member m → (∀ y ∈ ms, Derives .member y) →
      Derives .value ('{' :: (m ++ (ms.map fun y => ',' :: y).flatten ++ ['}']))
  | element (w₁ v w₂ : List Char) :
      Whitespace w₁ → Derives .value v → Whitespace w₂ → Derives .element (w₁ ++ v ++ w₂)
  | member (w₁ key w₂ e : List Char) :
      Whitespace w₁ → StringContents key → Whitespace w₂ → Derives .element e →
      Derives .member (w₁ ++ '"' :: (key ++ '"' :: (w₂ ++ ':' :: e)))

/-- The text is one syntactically valid JSON document. -/
def Valid (s : String) : Prop :=
  Derives .element s.data

/-- The text is a JSON object. -/
def IsObject (s : String) : Prop :=
  Derives .value s.data ∧ s.data.head? = some '{'

end Json

/-- The elements of the `stats` array written so far, comma-separated. -/
def arrayContents : List (List Char) → List Char
  | [] => []
  | x :: xs => x ++ (xs.map fun y => ',' :: y).flatten

/-- The histogram vectors have the lengths the renderers assert. -/
def ParentHistogram.consistent (h : ParentHistogram) : Prop :=
  h.intervalStatistics.computedQuantiles.length = h.cumulativeStatistics.computedQuantiles.length ∧
  h.intervalStatistics.computedQuantiles.length ≤ h.intervalStatistics.supportedQuantiles.length ∧
  h.intervalStatistics.computedBuckets.length = h.cumulativeStatistics.computedBuckets.length ∧
  h.cumulativeStatistics.computedBuckets.length = h.intervalStatistics.supportedBuckets.length ∧
  h.intervalStatistics.computeDisjointBuckets.length =
    h.cumulativeStatistics.computeDisjointBuckets.length ∧
  h.cumulativeStatistics.computeDisjointBuckets.length =
    h.intervalStatistics.supportedBuckets.length

/-- What one histogram `generate` may change in the renderer: one entry more
in `histogram_array_`, and in `NoBuckets` mode the flag and the quantile
header. -/
structure StatsJsonRender.Buffered (before after : StatsJsonRender) : Prop where
  mode : after.histogram_buckets_mode_ = before.histogram_buckets_mode_
  delim : after.delim_ = before.delim_
  container : after.histograms_obj_container_ = before.histograms_obj_container_
  entry : ∃ e, after.histogram_array_ = before.histogram_array_ ++ [e]

/-- The invariant of a JSON request between two driver calls: the sink holds
the preamble and a comma-separated run of JSON elements, `delim_` is empty
exactly while that run is empty, and the flag `found_used_histogram_` is set
only in `NoBuckets` mode and always once a histogram is buffered there. -/
def StatsJsonRender.Streaming (state : String × StatsJsonRender) : Prop :=
  ∃ elements : List (List Char),
    state.1.data = "\x7b\"stats\":[".data ++ arrayContents elements ∧
    (∀ e ∈ elements, Json.Derives .element e) ∧
    state.2.delim_ = (if elements = [] then "" else ",") ∧
    (state.2.found_used_histogram_ = true → state.2.histogram_buckets_mode_ = .NoBuckets) ∧
    (state.2.histogram_buckets_mode_ = .NoBuckets → state.2.histogram_array_ ≠ [] →
      state.2.found_used_histogram_ = true)

/-- Every histogram the driver passes has consistent vectors. -/
def JsonCall.consistent : JsonCall → Prop
  | .numeric _ _ => True
  | .text _ _ => True
  | .histogram _ h => ParentHistogram.consistent h

/-- Collaborators of a release build: as `sampleCollaborators`, with the
`ASSERT` macro compiled out. -/
def releaseCollaborators : Collaborators :=
  { sampleCollaborators with assertsEnabled := false }

/-- Whether the text holds a double quote that no backslash escapes; `escaped`
says the previous character was an escaping backslash. -/
def unescapedQuoteFrom : Bool → List Char → Bool
  | _, [] => false
  | true, _ :: rest => unescapedQuoteFrom false rest
  | false, c :: rest =>
    if c = '\\' then unescapedQuoteFrom true rest
    else if c = '"' then true
    else unescapedQuoteFrom false rest

/-- The text holds a double quote that is not escaped by a backslash. -/
def hasUnescapedQuote (s : String) : Bool :=
  unescapedQuoteFrom false s.data

/-- The object `summarizeBuckets` builds for one supported quantile. -/
def StatsJsonRender.quantilePair (interval cumulative : Double) : ProtoValue :=
  .structValue [("interval", StatsJsonRender.quantileValue interval),
    ("cumulative", StatsJsonRender.quantileValue cumulative)]

/-- The list `summarizeBuckets` records under `supported_quantiles`: the
supported quantile ratios, each multiplied by 100. -/
def StatsJsonRender.supportedQuantilesValue (env : Collaborators) : ProtoValue :=
  .listValue (env.defaultSupportedQuantiles.map fun quantile =>
    .numberValue (env.timesHundred quantile))

/-- The call is one of the two scalar overloads (numeric or text). -/
def JsonCall.isScalar : JsonCall → Bool
  | .numeric _ _ => true
  | .text _ _ => true
  | .histogram _ _ => false

/-- The name passed to a histogram call. -/
def JsonCall.histogramName : JsonCall → Option String
  | .histogram name _ => some name
  | _ => none

/-- The lookup `fields.at(key)` in a struct's field map. -/
def ProtoMap.find : ProtoMap → String → Option ProtoValue
  | [], _ => none
  | (k, v) :: rest, key => if k = key then some v else ProtoMap.find rest key

/-- The string under the key `name` of a buffered per-histogram entry. -/
def ProtoValue.entryName : ProtoValue → Option String
  | .structValue fields =>
    match ProtoMap.find fields "name" with
    | some (.stringValue s) => some s
    | _ => none
  | _ => none

/-- What the histogram-side members of the JSON renderer hold after the driver
calls `seen` since construction in mode `mode`. -/
structure StatsJsonRender.Tracked (env : Collaborators) (mode : HistogramBucketsMode)
    (seen : List JsonCall) (renderer : StatsJsonRender) : Prop where
  mode_eq : renderer.histogram_buckets_mode_ = mode
  container : renderer.histograms_obj_container_ = []
  flag : renderer.found_used_histogram_ = true ↔
    (mode = .NoBuckets ∧ ∃ name histogram, JsonCall.histogram name histogram ∈ seen)
  header : renderer.histograms_obj_ =
    if renderer.found_used_histogram_ = true then
      [("supported_quantiles", StatsJsonRender.supportedQuantilesValue env)]
    else []
  names : renderer.histogram_array_.map ProtoValue.entryName =
    (seen.filterMap JsonCall.histogramName).map some

/-- The sink and `delim_` after the scalar calls of a sequence, written from
sink `state.1` and delimiter `state.2`; histogram calls are passed over. -/
def scalarRun (env : Collaborators) : String × String → List JsonCall → String × String
  | state, [] => state
  | state, .numeric name value :: rest =>
    scalarRun env
      (Buffer.addFragments state.1
        [state.2, JsonNameTag, env.jsonSanitize name, JsonValueTag, decimal value,
          JsonCloseBrace], ",") rest
  | state, .text name value :: rest =>
    scalarRun env
      (Buffer.addFragments state.1
        [state.2, JsonNameTag, env.jsonSanitize name, JsonValueTagQuote,
          env.jsonSanitize value, JsonQuoteCloseBrace], ",") rest
  | state, .histogram _ _ :: rest => scalarRun env state rest

/-- The quiet NaN. -/
def sampleNaN : Double := ⟨0x7FF8000000000000⟩

/-- A used histogram with two supported quantiles; its first interval quantile
is NaN. -/
def sampleQuantileHistogram : ParentHistogram where
  tags := []
  used := true
  intervalStatistics :=
    { sampleStatistics with
      supportedQuantiles := [⟨0x3FE0000000000000⟩, ⟨0x3FF0000000000000⟩]
      computedQuantiles := [sampleNaN, ⟨0x4014000000000000⟩] }
  cumulativeStatistics :=
    { sampleStatistics with
      supportedQuantiles := [⟨0x3FE0000000000000⟩, ⟨0x3FF0000000000000⟩]
      computedQuantiles := [⟨0x3FF0000000000000⟩, ⟨0x4014000000000000⟩] }
  quantileSummary := ""
  bucketSummary := ""

/-- Collaborators whose encoder fails on every message: it answers the empty
string. -/
def failingEncoderCollaborators : Collaborators :=
  { sampleCollaborators with getJsonString := fun _ => "" }

/-- The fragments the loop of `addDisjointBuckets` pushes for the entries
`entries`, the first of which has index `i`: a space before every entry but
the one of index `0`. -/
def StatsTextRender.fragments : Nat → List String → List String
  | _, [] => []
  | i, e :: rest =>
    (if i != 0 then [" ", e] else [e]) ++ StatsTextRender.fragments (i + 1) rest

/-- The text of one disjoint bucket: `B<boundary>(<interval>,<cumulative>)`. -/
def StatsTextRender.bucketText (env : Collaborators) (boundary : Double)
    (counts : Nat × Nat) : String :=
  "B" ++ env.formatG boundary ++ "(" ++ decimal counts.1 ++ "," ++ decimal counts.2 ++ ")"

/-- A used histogram that breaks the contract: three supported boundaries, but
one disjoint count in each window. -/
def mismatchedHistogram : ParentHistogram :=
  { sampleHistogram with
    intervalStatistics := { sampleStatistics with computeDisjointBuckets := [2] }
    cumulativeStatistics := { sampleStatistics with computeDisjointBuckets := [2] } }

/-- A histogram whose interval vectors are empty while the cumulative ones have
three entries, as the supported boundaries. -/
def intervalMismatchHistogram : ParentHistogram :=
  { sampleHistogram with
    intervalStatistics :=
      { sampleStatistics with computedBuckets := [], computeDisjointBuckets := [] } }

/-- The inverse scan of `sanitizeValue`: after a backslash (`escaped`), `n`
stands for a newline and any other character for itself; outside an escape a
backslash opens one. -/
def PrometheusStatsRender.unescapeFrom : Bool → List Char → List Char
  | _, [] => []
  | true, c :: rest =>
    (if c = 'n' then '\n' else c) :: PrometheusStatsRender.unescapeFrom false rest
  | false, c :: rest =>
    if c = '\\' then PrometheusStatsRender.unescapeFrom true rest
    else c :: PrometheusStatsRender.unescapeFrom false rest

/-- The unescape function: backslash-backslash becomes a backslash,
backslash-`n` a newline, backslash-quote a double quote, left to right. -/
def PrometheusStatsRender.unescape (s : String) : String :=
  ⟨PrometheusStatsRender.unescapeFrom false s.data⟩

/-- The object `collectBuckets` builds for one supported boundary. -/
def StatsJsonRender.bucketValue (env : Collaborators) (upper_bound : Double)
    (counts : Nat × Nat) : ProtoValue :=
  .structValue [("upper_bound", .numberValue upper_bound),
    ("interval", .numberValue (env.toDouble counts.1)),
    ("cumulative", .numberValue (env.toDouble counts.2))]

/-- The sample histogram before it has recorded any value. -/
def unusedHistogram : ParentHistogram :=
  { sampleHistogram with used := false }

/-! ## Lemmas on strings -/

theorem string_eq_of_data {s t : String} (h : s.data = t.data) : s = t := by
  cases s; cases t; exact congrArg String.mk h

theorem isEmpty_eq_true_iff (s : String) : s.isEmpty = true ↔ s.data = [] := by
  rw [String.isEmpty_iff]
  constructor
  · intro h; rw [h]
  · intro h; exact string_eq_of_data h

theorem join_nil : String.join [] = "" := rfl

theorem join_cons (a : String) (l : List String) : String.join (a :: l) = a ++ String.join l := by
  apply string_eq_of_data
  simp [String.data_join]

theorem join_append (l₁ l₂ : List String) :
    String.join (l₁ ++ l₂) = String.join l₁ ++ String.join l₂ := by
  apply string_eq_of_data
  simp [String.data_join]

theorem string_append_empty (s : String) : s ++ "" = s := by
  apply string_eq_of_data
  simp

theorem StrJoin_append_singleton (xs : List String) (t separator : String) (h : xs ≠ []) :
    StrJoin (xs ++ [t]) separator = StrJoin xs separator ++ separator ++ t := by
  induction xs with
  | nil => exact absurd rfl h
  | cons a rest ih =>
    cases rest with
    | nil => rfl
    | cons b rest' =>
      show a ++ separator ++ StrJoin (b :: rest' ++ [t]) separator = _
      rw [ih (by simp)]
      simp only [StrJoin, String.append_assoc]

theorem vectorAt_of_getElem? {α : Type} {v : List α} {i : Nat} {x : α} (h : v[i]? = some x) :
    vectorAt v i = .ok x := by
  unfold vectorAt
  rw [h]

theorem exists_of_mem_zipWith {α β γ : Type} (f : α → β → γ) :
    ∀ (l₁ : List α) (l₂ : List β) (x : γ), x ∈ List.zipWith f l₁ l₂ → ∃ a b, x = f a b
  | [], _, x, h => by simp at h
  | _ :: _, [], x, h => by simp at h
  | a :: l₁, b :: l₂, x, h => by
    rw [List.zipWith_cons_cons, List.mem_cons] at h
    rcases h with h | h
    · exact ⟨a, b, h⟩
    · exact exists_of_mem_zipWith f l₁ l₂ x h

theorem getLast?_append_newline (t : String) : (t ++ "\n").data.getLast? = some '\n' := by
  rw [String.data_append]
  show (t.data ++ ['\n']).getLast? = some '\n'
  simp

/-! ## Decimal numerals -/

theorem digitChar_isDigit {k : Nat} (h : k < 10) : (Nat.digitChar k).isDigit = true := by
  interval_cases k <;> decide

theorem digitChar_ne_zero {k : Nat} (h : k < 10) (h0 : k ≠ 0) : Nat.digitChar k ≠ '0' := by
  interval_cases k <;> first | exact absurd rfl h0 | decide

theorem toDigitsCore_shape (fuel : Nat) :
    ∀ (n : Nat) (ds : List Char), n < fuel → 0 < n →
      ∃ d rest, Nat.toDigitsCore 10 fuel n ds = d :: (rest ++ ds) ∧
        d.isDigit = true ∧ d ≠ '0' ∧ ∀ c ∈ rest, c.isDigit = true := by
  induction fuel with
  | zero => intro n ds h; omega
  | succ f ih =>
    intro n ds hlt hpos
    rw [Nat.toDigitsCore]
    by_cases hq : n / 10 = 0
    · simp only [hq, if_true]
      have hn : n % 10 = n := Nat.mod_eq_of_lt (by omega)
      refine ⟨Nat.digitChar (n % 10), [], rfl, digitChar_isDigit (Nat.mod_lt _ (by omega)), ?_,
        by simp⟩
      exact digitChar_ne_zero (Nat.mod_lt _ (by omega)) (by omega)
    · simp only [hq, if_false]
      obtain ⟨d, rest, heq, hd, hd0, hrest⟩ :=
        ih (n / 10) (Nat.digitChar (n % 10) :: ds) (by omega) (by omega)
      refine ⟨d, rest ++ [Nat.digitChar (n % 10)], ?_, hd, hd0, ?_⟩
      · rw [heq]; simp
      · intro c hc
        rw [List.mem_append, List.mem_singleton] at hc
        rcases hc with hc | hc
        · exact hrest c hc
        · rw [hc]; exact digitChar_isDigit (Nat.mod_lt _ (by omega))

theorem decimal_intPart (value : Nat) : Json.IntPart (decimal value).data := by
  show Json.IntPart (Nat.toDigits 10 value)
  unfold Nat.toDigits
  by_cases h : value = 0
  · subst h; exact Or.inl rfl
  · obtain ⟨d, rest, heq, hd, hd0, hrest⟩ :=
      toDigitsCore_shape (value + 1) value [] (by omega) (by omega)
    exact Or.inr ⟨d, rest, by rw [heq, List.append_nil], hd, hd0, hrest⟩

theorem decimal_number (value : Nat) : Json.Number (decimal value).data :=
  ⟨[], (decimal value).data, [], [], by simp, Or.inl rfl, decimal_intPart value, Or.inl rfl,
    Or.inl rfl⟩

/-! ## Loops and assertions -/

theorem forLoop_ok {σ : Type} (body : Nat → σ → Except Fault σ) :
    ∀ (remaining i : Nat) (s : σ),
      (∀ j t, i ≤ j → j < i + remaining → ∃ t', body j t = .ok t') →
      ∃ s', forLoop body i remaining s = .ok s' := by
  intro remaining
  induction remaining with
  | zero => intro i s _; exact ⟨s, rfl⟩
  | succ k ih =>
    intro i s hbody
    obtain ⟨t', ht'⟩ := hbody i s (Nat.le_refl i) (by omega)
    rw [forLoop, ht']
    exact ih (i + 1) t' fun j t h₁ h₂ => hbody j t (by omega) (by omega)

theorem vectorAt_ok {α : Type} (v : List α) {i : Nat} (h : i < v.length) :
    vectorAt v i = .ok v[i] :=
  vectorAt_of_getElem? (List.getElem?_eq_getElem h)

theorem ASSERT_disabled {env : Collaborators} (h : env.assertsEnabled = false) (cond : Bool) :
    ASSERT env cond = .ok () := by
  simp [ASSERT, h]

theorem ASSERT_true (env : Collaborators) : ASSERT env true = .ok () := by
  simp [ASSERT]

theorem ASSERT_of_or {env : Collaborators} {cond : Bool}
    (h : env.assertsEnabled = false ∨ cond = true) : ASSERT env cond = .ok () := by
  rcases h with h | h
  · exact ASSERT_disabled h cond
  · rw [h]; exact ASSERT_true env

namespace StatsJsonRender

theorem summarizeLoop_ok (computed_quantiles cumulative_quantiles : List Double) (n : Nat)
    (h₁ : n ≤ computed_quantiles.length) (h₂ : n ≤ cumulative_quantiles.length) :
    ∃ values, forLoop (summarizeBody computed_quantiles cumulative_quantiles) 0 n [] =
      .ok values := by
  apply forLoop_ok
  intro j t _ hj
  unfold summarizeBody
  rw [vectorAt_ok computed_quantiles (by omega), vectorAt_ok cumulative_quantiles (by omega)]
  exact ⟨_, rfl⟩

theorem collectLoop_ok (env : Collaborators) (supported_buckets : List Double)
    (interval_buckets cumulative_buckets : List Nat) (n : Nat)
    (h₀ : n ≤ supported_buckets.length) (h₁ : n ≤ interval_buckets.length)
    (h₂ : n ≤ cumulative_buckets.length) :
    ∃ buckets, forLoop (collectBody env supported_buckets interval_buckets cumulative_buckets)
      0 n [] = .ok buckets := by
  apply forLoop_ok
  intro j t _ hj
  unfold collectBody
  rw [vectorAt_ok supported_buckets (by omega), vectorAt_ok interval_buckets (by omega),
    vectorAt_ok cumulative_buckets (by omega)]
  exact ⟨_, rfl⟩

theorem summarizeBuckets_ok {env : Collaborators} {self after : StatsJsonRender} {name : String}
    {histogram : ParentHistogram} (h : summarizeBuckets env self name histogram = .ok after) :
    Buffered self after ∧ after.found_used_histogram_ = true := by
  unfold summarizeBuckets at h
  simp only [bind, Except.bind, pure, Except.pure] at h
  split at h
  · exact absurd h (by simp)
  · split at h
    · exact absurd h (by simp)
    · split at h
      · exact absurd h (by simp)
      · injection h with h
        subst h
        by_cases hf : self.found_used_histogram_ = true
        · simp [hf]
          exact ⟨by simp [hf], by simp [hf], by simp [hf], ⟨_, by simp [hf]; rfl⟩⟩
        · simp [hf]
          exact ⟨by simp [hf], by simp [hf], by simp [hf], ⟨_, by simp [hf]; rfl⟩⟩

theorem collectBuckets_ok {env : Collaborators} {self after : StatsJsonRender} {name : String}
    {histogram : ParentHistogram} {interval_buckets cumulative_buckets : List Nat}
    (h : collectBuckets env self name histogram interval_buckets cumulative_buckets = .ok after) :
    Buffered self after ∧ after.found_used_histogram_ = self.found_used_histogram_ := by
  unfold collectBuckets at h
  simp only [bind, Except.bind, pure, Except.pure] at h
  split at h
  · exact absurd h (by simp)
  · split at h
    · exact absurd h (by simp)
    · split at h
      · exact absurd h (by simp)
      · injection h with h
        subst h
        exact ⟨⟨rfl, rfl, rfl, ⟨_, rfl⟩⟩, rfl⟩

theorem generateHistogram_ok {env : Collaborators} {self after : StatsJsonRender}
    {response response' name : String} {histogram : ParentHistogram}
    (h : generateHistogram env self response name histogram = .ok (response', after)) :
    response' = response ∧ Buffered self after ∧
      (after.found_used_histogram_ = true ↔
        (self.found_used_histogram_ = true ∨ self.histogram_buckets_mode_ = .NoBuckets)) := by
  unfold generateHistogram at h
  split at h
  · rename_i hmode
    cases hs : summarizeBuckets env self name histogram with
    | error e => rw [hs] at h; exact absurd h (by simp [Except.map])
    | ok st =>
      rw [hs] at h
      simp only [Except.map, Except.ok.injEq, Prod.mk.injEq] at h
      obtain ⟨rfl, rfl⟩ := h
      obtain ⟨hb, hf⟩ := summarizeBuckets_ok hs
      exact ⟨rfl, hb, by simp [hf, hmode]⟩
  · rename_i hmode
    cases hs : collectBuckets env self name histogram
        histogram.intervalStatistics.computedBuckets
        histogram.cumulativeStatistics.computedBuckets with
    | error e => rw [hs] at h; exact absurd h (by simp [Except.map])
    | ok st =>
      rw [hs] at h
      simp only [Except.map, Except.ok.injEq, Prod.mk.injEq] at h
      obtain ⟨rfl, rfl⟩ := h
      obtain ⟨hb, hf⟩ := collectBuckets_ok hs
      exact ⟨rfl, hb, by simp [hf, hmode]⟩
  · rename_i hmode
    cases hs : collectBuckets env self name histogram
        histogram.intervalStatistics.computeDisjointBuckets
        histogram.cumulativeStatistics.computeDisjointBuckets with
    | error e => rw [hs] at h; exact absurd h (by simp [Except.map])
    | ok st =>
      rw [hs] at h
      simp only [Except.map, Except.ok.injEq, Prod.mk.injEq] at h
      obtain ⟨rfl, rfl⟩ := h
      obtain ⟨hb, hf⟩ := collectBuckets_ok hs
      exact ⟨rfl, hb, by simp [hf, hmode]⟩

theorem summarizeBuckets_total (env : Collaborators) (self : StatsJsonRender) (name : String)
    (histogram : ParentHistogram)
    (h : env.assertsEnabled = false ∨
      (histogram.intervalStatistics.computedQuantiles.length =
          histogram.cumulativeStatistics.computedQuantiles.length ∧
        histogram.intervalStatistics.computedQuantiles.length ≤
          histogram.intervalStatistics.supportedQuantiles.length)) :
    ∃ after, summarizeBuckets env self name histogram = .ok after := by
  unfold summarizeBuckets
  simp only [bind, Except.bind, pure, Except.pure]
  have a₁ : ASSERT env
      (min histogram.intervalStatistics.computedQuantiles.length
          (min histogram.cumulativeStatistics.computedQuantiles.length
            histogram.intervalStatistics.supportedQuantiles.length) ==
        histogram.intervalStatistics.computedQuantiles.length) = .ok () := by
    apply ASSERT_of_or
    rcases h with h | ⟨h₁, h₂⟩
    · exact Or.inl h
    · right; rw [beq_iff_eq]; omega
  have a₂ : ASSERT env
      (min histogram.intervalStatistics.computedQuantiles.length
          (min histogram.cumulativeStatistics.computedQuantiles.length
            histogram.intervalStatistics.supportedQuantiles.length) ==
        histogram.cumulativeStatistics.computedQuantiles.length) = .ok () := by
    apply ASSERT_of_or
    rcases h with h | ⟨h₁, h₂⟩
    · exact Or.inl h
    · right; rw [beq_iff_eq]; omega
  obtain ⟨values, hv⟩ := summarizeLoop_ok histogram.intervalStatistics.computedQuantiles
    histogram.cumulativeStatistics.computedQuantiles
    (min histogram.intervalStatistics.computedQuantiles.length
      (min histogram.cumulativeStatistics.computedQuantiles.length
        histogram.intervalStatistics.supportedQuantiles.length)) (by omega) (by omega)
  rw [a₁, a₂]
  simp only [hv]
  exact ⟨_, rfl⟩

theorem collectBuckets_total (env : Collaborators) (self : StatsJsonRender) (name : String)
    (histogram : ParentHistogram) (interval_buckets cumulative_buckets : List Nat)
    (h : env.assertsEnabled = false ∨
      (interval_buckets.length = cumulative_buckets.length ∧
        cumulative_buckets.length = histogram.intervalStatistics.supportedBuckets.length)) :
    ∃ after,
      collectBuckets env self name histogram interval_buckets cumulative_buckets = .ok after := by
  unfold collectBuckets
  simp only [bind, Except.bind, pure, Except.pure]
  have a₁ : ASSERT env (interval_buckets.length == cumulative_buckets.length) = .ok () := by
    apply ASSERT_of_or
    rcases h with h | ⟨h₁, h₂⟩
    · exact Or.inl h
    · right; rw [beq_iff_eq]; exact h₁
  have a₂ : ASSERT env
      (cumulative_buckets.length == histogram.intervalStatistics.supportedBuckets.length) =
        .ok () := by
    apply ASSERT_of_or
    rcases h with h | ⟨h₁, h₂⟩
    · exact Or.inl h
    · right; rw [beq_iff_eq]; exact h₂
  obtain ⟨buckets, hb⟩ := collectLoop_ok env histogram.intervalStatistics.supportedBuckets
    interval_buckets cumulative_buckets
    (min interval_buckets.length
      (min cumulative_buckets.length histogram.intervalStatistics.supportedBuckets.length))
    (by omega) (by omega) (by omega)
  rw [a₁, a₂]
  simp only [hb]
  exact ⟨_, rfl⟩

theorem generateHistogram_total (env : Collaborators) (self : StatsJsonRender)
    (response name : String) (histogram : ParentHistogram)
    (h : env.assertsEnabled = false ∨ histogram.consistent) :
    ∃ after, generateHistogram env self response name histogram = .ok (response, after) := by
  unfold generateHistogram
  split
  · obtain ⟨after, ha⟩ := summarizeBuckets_total env self name histogram
      (h.imp id fun hc => ⟨hc.1, hc.2.1⟩)
    exact ⟨after, by rw [ha]; rfl⟩
  · obtain ⟨after, ha⟩ := collectBuckets_total env self name histogram
      histogram.intervalStatistics.computedBuckets
      histogram.cumulativeStatistics.computedBuckets
      (h.imp id fun hc => ⟨hc.2.2.1, hc.2.2.2.1⟩)
    exact ⟨after, by rw [ha]; rfl⟩
  · obtain ⟨after, ha⟩ := collectBuckets_total env self name histogram
      histogram.intervalStatistics.computeDisjointBuckets
      histogram.cumulativeStatistics.computeDisjointBuckets
      (h.imp id fun hc => ⟨hc.2.2.2.2.1, hc.2.2.2.2.2⟩)
    exact ⟨after, by rw [ha]; rfl⟩

end StatsJsonRender

/-! ## JSON documents -/

namespace Json

theorem stringContents_of_plain (l : List Char)
    (h : ∀ c ∈ l, c ≠ '"' ∧ c ≠ '\\' ∧ 0x20 ≤ c.toNat) : StringContents l := by
  induction l with
  | nil => exact .nil
  | cons c rest ih =>
    obtain ⟨h₁, h₂, h₃⟩ := h c (List.mem_cons_self _ _)
    exact .plain c rest h₁ h₂ h₃ (ih fun d hd => h d (List.mem_cons_of_mem _ hd))

theorem whitespace_nil : Whitespace [] := by
  intro c hc
  simp at hc

theorem element_of_value {v : List Char} (h : Derives .value v) : Derives .element v := by
  have := Derives.element [] v [] whitespace_nil h whitespace_nil
  simpa using this

theorem member_of {key e : List Char} (hk : StringContents key) (he : Derives .element e) :
    Derives .member ('"' :: (key ++ '"' :: ':' :: e)) := by
  have := Derives.member [] key [] e whitespace_nil hk whitespace_nil he
  simpa using this

theorem array_of_elements (elements : List (List Char))
    (h : ∀ e ∈ elements, Derives .element e) :
    Derives .value ('[' :: (arrayContents elements ++ [']'])) := by
  cases elements with
  | nil => exact Derives.emptyArray [] whitespace_nil
  | cons x xs =>
    exact Derives.array x xs (h x (List.mem_cons_self _ _))
      fun y hy => h y (List.mem_cons_of_mem _ hy)

theorem object_of_two {m₁ m₂ : List Char} (h₁ : Derives .member m₁) (h₂ : Derives .member m₂) :
    Derives .value ('{' :: (m₁ ++ ',' :: m₂ ++ ['}'])) := by
  have := Derives.object m₁ [m₂] h₁ (by simpa using h₂)
  simpa using this

theorem object_of_one {m : List Char} (h : Derives .member m) :
    Derives .value ('{' :: (m ++ ['}'])) := by
  have := Derives.object m [] h (by simp)
  simpa using this

theorem derives_ne_nil {k : Kind} {l : List Char} (h : Derives k l) : l ≠ [] := by
  induction h with
  | null => simp
  | true => simp
  | false => simp
  | number l hnum =>
    obtain ⟨sign, int, frac, exp, rfl, -, hint, -, -⟩ := hnum
    rcases hint with rfl | ⟨d, rest, rfl, -⟩ <;> simp
  | string => simp
  | emptyArray => simp
  | array => simp
  | emptyObject => simp
  | object => simp
  | element w₁ v w₂ _ _ _ ih => simp [ih]
  | member => simp

/-- The grammar is not trivial: the empty text is not a JSON document. -/
theorem not_valid_empty : ¬ Valid "" :=
  fun h => derives_ne_nil h rfl

end Json

theorem arrayContents_append (elements : List (List Char)) (e : List Char) :
    arrayContents (elements ++ [e]) =
      arrayContents elements ++ ((if elements = [] then "" else ",") : String).data ++ e := by
  cases elements with
  | nil => simp [arrayContents]
  | cons x xs =>
    simp only [List.cons_append, arrayContents, List.map_append, List.flatten_append,
      List.map_cons, List.map_nil, List.flatten_cons, List.flatten_nil, List.append_nil,
      reduceCtorEq, if_false, List.append_assoc]
    rfl

namespace StatsJsonRender

theorem numeric_element (env : Collaborators)
    (hsan : ∀ s, Json.StringContents (env.jsonSanitize s).data) (name : String) (value : Nat) :
    Json.Derives .element
      (JsonNameTag ++ env.jsonSanitize name ++ JsonValueTag ++ decimal value ++
        JsonCloseBrace).data := by
  have key₁ : Json.StringContents ['n', 'a', 'm', 'e'] :=
    Json.stringContents_of_plain _ (by decide)
  have key₂ : Json.StringContents ['v', 'a', 'l', 'u', 'e'] :=
    Json.stringContents_of_plain _ (by decide)
  have m₁ := Json.member_of key₁ (Json.element_of_value (Json.Derives.string _ (hsan name)))
  have m₂ := Json.member_of key₂
    (Json.element_of_value (Json.Derives.number _ (decimal_number value)))
  have := Json.element_of_value (Json.object_of_two m₁ m₂)
  have t₁ : JsonNameTag.data = ['{', '"', 'n', 'a', 'm', 'e', '"', ':', '"'] := rfl
  have t₂ : JsonValueTag.data = ['"', ',', '"', 'v', 'a', 'l', 'u', 'e', '"', ':'] := rfl
  have t₃ : JsonCloseBrace.data = ['}'] := rfl
  simp only [String.data_append, t₁, t₂, t₃]
  simpa using this

theorem text_element (env : Collaborators)
    (hsan : ∀ s, Json.StringContents (env.jsonSanitize s).data) (name value : String) :
    Json.Derives .element
      (JsonNameTag ++ env.jsonSanitize name ++ JsonValueTagQuote ++ env.jsonSanitize value ++
        JsonQuoteCloseBrace).data := by
  have key₁ : Json.StringContents ['n', 'a', 'm', 'e'] :=
    Json.stringContents_of_plain _ (by decide)
  have key₂ : Json.StringContents ['v', 'a', 'l', 'u', 'e'] :=
    Json.stringContents_of_plain _ (by decide)
  have m₁ := Json.member_of key₁ (Json.element_of_value (Json.Derives.string _ (hsan name)))
  have m₂ := Json.member_of key₂ (Json.element_of_value (Json.Derives.string _ (hsan value)))
  have := Json.element_of_value (Json.object_of_two m₁ m₂)
  have t₁ : JsonNameTag.data = ['{', '"', 'n', 'a', 'm', 'e', '"', ':', '"'] := rfl
  have t₂ : JsonValueTagQuote.data = ['"', ',', '"', 'v', 'a', 'l', 'u', 'e', '"', ':', '"'] :=
    rfl
  have t₃ : JsonQuoteCloseBrace.data = ['"', '}'] := rfl
  simp only [String.data_append, t₁, t₂, t₃]
  simpa using this

theorem streaming_create (mode : HistogramBucketsMode) : Streaming (create "" mode) :=
  ⟨[], rfl, by simp, rfl, by simp [create], by simp [create]⟩

theorem streaming_scalar {response : String} {self : StatsJsonRender} {fragment : String}
    (h : Streaming (response, self)) (hf : Json.Derives .element fragment.data) :
    Streaming (response ++ (self.delim_ ++ fragment), { self with delim_ := "," }) := by
  obtain ⟨elements, hdata, hall, hdelim, hfound, hmode⟩ := h
  refine ⟨elements ++ [fragment.data], ?_, ?_, by simp, hfound, hmode⟩
  · simp only at hdata hdelim
    rw [arrayContents_append, String.data_append, String.data_append, hdata, hdelim]
    simp only [List.append_assoc]
  · intro e he
    rw [List.mem_append, List.mem_singleton] at he
    rcases he with he | he
    · exact hall e he
    · rw [he]; exact hf

theorem streaming_generate {env : Collaborators}
    (hsan : ∀ s, Json.StringContents (env.jsonSanitize s).data)
    {state state' : String × StatsJsonRender} {call : JsonCall}
    (h : Streaming state) (hstep : generate env state call = .ok state') : Streaming state' := by
  obtain ⟨response, self⟩ := state
  cases call with
  | numeric name value =>
    simp only [generate, Except.ok.injEq] at hstep
    subst hstep
    have := streaming_scalar h (numeric_element env hsan name value)
    simpa [generateNumeric, Buffer.addFragments, join_cons, join_nil, string_append_empty,
      String.append_assoc] using this
  | text name value =>
    simp only [generate, Except.ok.injEq] at hstep
    subst hstep
    have := streaming_scalar h (text_element env hsan name value)
    simpa [generateText, Buffer.addFragments, join_cons, join_nil, string_append_empty,
      String.append_assoc] using this
  | histogram name histogram =>
    obtain ⟨response', after⟩ := state'
    simp only [generate] at hstep
    obtain ⟨rfl, hb, hflag⟩ := generateHistogram_ok hstep
    obtain ⟨elements, hdata, hall, hdelim, hfound, hmode⟩ := h
    refine ⟨elements, hdata, hall, ?_, ?_, ?_⟩
    · simp only at hdelim ⊢
      rw [hb.delim, hdelim]
    · simp only at hfound ⊢
      intro hf
      rw [hb.mode]
      rcases hflag.mp hf with h' | h'
      · exact hfound h'
      · exact h'
    · simp only
      intro hm _
      rw [hb.mode] at hm
      exact hflag.mpr (Or.inr hm)

theorem streaming_generateAll {env : Collaborators}
    (hsan : ∀ s, Json.StringContents (env.jsonSanitize s).data) (calls : List JsonCall) :
    ∀ {state state' : String × StatsJsonRender}, Streaming state →
      generateAll env state calls = .ok state' → Streaming state' := by
  induction calls with
  | nil =>
    intro state state' h hrun
    simp only [generateAll, Except.ok.injEq] at hrun
    subst hrun
    exact h
  | cons call rest ih =>
    intro state state' h hrun
    rw [generateAll] at hrun
    cases hstep : generate env state call with
    | error e => rw [hstep] at hrun; exact absurd hrun (by simp)
    | ok mid =>
      rw [hstep] at hrun
      exact ih (streaming_generate hsan h hstep) hrun

theorem generateAll_total (env : Collaborators) (calls : List JsonCall) :
    ∀ state : String × StatsJsonRender,
      (env.assertsEnabled = false ∨ ∀ call ∈ calls, call.consistent) →
      ∃ state', generateAll env state calls = .ok state' := by
  induction calls with
  | nil => intro state _; exact ⟨state, rfl⟩
  | cons call rest ih =>
    intro state h
    have hrest : env.assertsEnabled = false ∨ ∀ c ∈ rest, c.consistent :=
      h.imp id fun hc c hmem => hc c (List.mem_cons_of_mem _ hmem)
    have hstep : ∃ mid, generate env state call = .ok mid := by
      cases call with
      | numeric name value => exact ⟨_, rfl⟩
      | text name value => exact ⟨_, rfl⟩
      | histogram name histogram =>
        obtain ⟨after, ha⟩ := generateHistogram_total env state.2 state.1 name histogram
          (h.imp id fun hc => hc _ (List.mem_cons_self _ _))
        exact ⟨_, ha⟩
    obtain ⟨mid, hmid⟩ := hstep
    rw [generateAll, hmid]
    exact ih mid hrest

theorem document_valid (elements : List (List Char))
    (hall : ∀ e ∈ elements, Json.Derives .element e) (out : String)
    (hout : out.data = "\x7b\"stats\":[".data ++ arrayContents elements ++ "]\x7d".data) :
    Json.Valid out := by
  have key : Json.StringContents ['s', 't', 'a', 't', 's'] :=
    Json.stringContents_of_plain _ (by decide)
  have := Json.element_of_value (Json.object_of_one
    (Json.member_of key (Json.element_of_value (Json.array_of_elements elements hall))))
  have t₁ : ("\x7b\"stats\":[" : String).data = ['{', '"', 's', 't', 'a', 't', 's', '"', ':', '['] :=
    rfl
  have t₂ : ("]\x7d" : String).data = [']', '}'] := rfl
  unfold Json.Valid
  rw [hout, t₁, t₂]
  simpa using this

theorem histogramsDocument_total (env : Collaborators) (self : StatsJsonRender)
    (hfound : self.found_used_histogram_ = true → self.histogram_buckets_mode_ = .NoBuckets)
    (hmode : self.histogram_buckets_mode_ = .NoBuckets → self.found_used_histogram_ = true) :
    ∃ document, histogramsDocument env self = .ok document := by
  unfold histogramsDocument
  by_cases hf : self.found_used_histogram_ = true
  · rw [if_pos hf, hfound hf]
    simp only [bind, Except.bind, pure, Except.pure]
    rw [show ((HistogramBucketsMode.NoBuckets == HistogramBucketsMode.NoBuckets) = true) from rfl,
      ASSERT_true]
    exact ⟨_, rfl⟩
  · rw [if_neg hf]
    simp only [bind, Except.bind, pure, Except.pure]
    have hne : (self.histogram_buckets_mode_ != HistogramBucketsMode.NoBuckets) = true := by
      rw [bne_iff_ne]
      exact fun h => hf (hmode h)
    rw [hne, ASSERT_true]
    exact ⟨_, rfl⟩

theorem finalize_streaming {env : Collaborators}
    (henc : ∀ document, env.getJsonString document = "" ∨
      Json.IsObject (env.getJsonString document))
    {response : String} {self : StatsJsonRender} (h : Streaming (response, self)) :
    ∃ out, finalize env self response = .ok out ∧ Json.Valid out := by
  obtain ⟨elements, hdata, hall, hdelim, hfound, hmode⟩ := h
  simp only at hdata hdelim hfound hmode
  have plain : Json.Valid (Buffer.add response "]\x7d") :=
    document_valid elements hall _ (by rw [Buffer.add, String.data_append, hdata])
  unfold finalize
  by_cases hlen : self.histogram_array_.length > 0
  · rw [if_pos hlen]
    have hne : self.histogram_array_ ≠ [] := by
      intro h0; rw [h0] at hlen; exact absurd hlen (by simp)
    obtain ⟨document, hdoc⟩ := histogramsDocument_total env self hfound fun hm => hmode hm hne
    rw [hdoc]
    simp only [bind, Except.bind, pure, Except.pure]
    refine ⟨_, rfl, ?_⟩
    rcases henc document with he | ho
    · rw [he]
      exact plain
    · have hnonempty : (env.getJsonString document).isEmpty = false := by
        rw [← Bool.not_eq_true, isEmpty_eq_true_iff]
        intro h0
        have := ho.2
        rw [h0] at this
        exact absurd this (by simp)
      rw [hnonempty]
      simp only [Bool.not_false, if_true]
      apply document_valid (elements ++ [(env.getJsonString document).data])
      · intro e he
        rw [List.mem_append, List.mem_singleton] at he
        rcases he with he | he
        · exact hall e he
        · rw [he]; exact Json.element_of_value ho.1
      · rw [arrayContents_append, Buffer.add, Buffer.addFragments, join_cons, join_cons,
          join_nil, string_append_empty, String.data_append, String.data_append,
          String.data_append, hdata, hdelim]
        simp only [List.append_assoc]
  · rw [if_neg hlen]
    exact ⟨_, rfl, plain⟩

theorem generateAll_numeric (env : Collaborators) (stats : List (String × Nat)) :
    ∀ (response : String) (self : StatsJsonRender), self.delim_ = "," →
      generateAll env (response, self) (stats.map fun stat => .numeric stat.1 stat.2) =
        .ok (response ++ String.join (stats.map fun stat =>
          "," ++ ("\x7b\"name\":\"" ++ env.jsonSanitize stat.1 ++ "\",\"value\":" ++
            decimal stat.2 ++ "\x7d")), self) := by
  induction stats with
  | nil =>
    intro response self _
    simp [generateAll, join_nil, string_append_empty]
  | cons stat rest ih =>
    intro response self hd
    have hself : ({ self with delim_ := "," } : StatsJsonRender) = self := by
      cases self; simp only at hd; subst hd; rfl
    rw [List.map_cons, generateAll]
    simp only [generate, generateNumeric, hself]
    rw [ih _ self hd, List.map_cons, join_cons, hd]
    simp only [Buffer.addFragments, join_cons, join_nil, string_append_empty,
      String.append_assoc]
    rfl

end StatsJsonRender

theorem StrJoin_cons (a : String) (rest : List String) (separator : String) :
    StrJoin (a :: rest) separator = a ++ String.join (rest.map fun x => separator ++ x) := by
  induction rest generalizing a with
  | nil => simp [StrJoin, join_nil, string_append_empty]
  | cons b rest ih =>
    rw [StrJoin, ih, List.map_cons, join_cons]
    simp only [String.append_assoc]

/-- C1. On an empty sink, constructing the JSON renderer, generating the
numeric stats of a list in order and finalizing leaves exactly the preamble,
the objects `{"name":"<sanitized name>","value":<decimal>}` joined by single
commas, and the closing `]}`; for `requests_total = 42`, `active = 3` (names the
sanitizer leaves alone) that is the document of the specification. -/
theorem renderJson_numeric (env : Collaborators) (mode : HistogramBucketsMode)
    (stats : List (String × Nat)) :
    renderJson env mode (stats.map fun stat => .numeric stat.1 stat.2) =
        .ok ("\x7b\"stats\":[" ++
          StrJoin (stats.map fun stat =>
            "\x7b\"name\":\"" ++ env.jsonSanitize stat.1 ++ "\",\"value\":" ++ decimal stat.2 ++ "\x7d")
            "," ++ "]\x7d") ∧
      (env.jsonSanitize "requests_total" = "requests_total" →
        env.jsonSanitize "active" = "active" →
        renderJson env mode [.numeric "requests_total" 42, .numeric "active" 3] =
          .ok "\x7b\"stats\":[\x7b\"name\":\"requests_total\",\"value\":42\x7d,\x7b\"name\":\"active\",\"value\":3\x7d]\x7d") := by
  have general : ∀ stats : List (String × Nat),
      renderJson env mode (stats.map fun stat => .numeric stat.1 stat.2) =
        .ok ("\x7b\"stats\":[" ++
          StrJoin (stats.map fun stat =>
            "\x7b\"name\":\"" ++ env.jsonSanitize stat.1 ++ "\",\"value\":" ++ decimal stat.2 ++ "\x7d")
            "," ++ "]\x7d") := by
    intro stats
    cases stats with
    | nil => rfl
    | cons stat rest =>
      unfold renderJson
      rw [List.map_cons, StatsJsonRender.generateAll]
      simp only [StatsJsonRender.generate, StatsJsonRender.generateNumeric]
      rw [StatsJsonRender.generateAll_numeric env rest _ _ rfl, List.map_cons, StrJoin_cons,
        List.map_map]
      simp only [StatsJsonRender.finalize, StatsJsonRender.create, List.length_nil,
        gt_iff_lt, Nat.lt_irrefl, if_false, Buffer.add, Buffer.addFragments, join_cons, join_nil,
        string_append_empty, String.append_assoc, String.empty_append]
      rfl
  refine ⟨general stats, fun h₁ h₂ => ?_⟩
  have := general [("requests_total", 42), ("active", 3)]
  simp only [List.map_cons, List.map_nil, h₁, h₂] at this
  rw [this]
  rfl

theorem renderJson_numeric_witness :
    renderJson sampleCollaborators .NoBuckets [.numeric "requests_total" 42, .numeric "active" 3] =
      .ok "\x7b\"stats\":[\x7b\"name\":\"requests_total\",\"value\":42\x7d,\x7b\"name\":\"active\",\"value\":3\x7d]\x7d" :=
  (renderJson_numeric sampleCollaborators .NoBuckets []).2 (by decide) (by decide)

theorem digitChar_isHex {k : Nat} (h : k < 16) : Json.isHex (Nat.digitChar k) = true := by
  interval_cases k <;> decide

theorem sampleSanitize_contents (s : String) : Json.StringContents (sampleSanitize s).data := by
  show Json.StringContents (s.data.map sampleSanitizeChar).flatten
  generalize s.data = l
  induction l with
  | nil => exact .nil
  | cons c rest ih =>
    rw [List.map_cons, List.flatten_cons]
    unfold sampleSanitizeChar
    split
    · exact .escape '"' _ (by decide) ih
    · split
      · exact .escape '\\' _ (by decide) ih
      · split
        · rename_i hlt
          exact .unicode '0' '0' _ _ _ (by decide) (by decide)
            (digitChar_isHex (by omega)) (digitChar_isHex (Nat.mod_lt _ (by omega))) ih
        · rename_i h₁ h₂ h₃
          exact .plain c _ h₁ h₂ (by omega) ih

theorem sampleEncoder_object (document : ProtoValue) :
    sampleCollaborators.getJsonString document = "" ∨
      Json.IsObject (sampleCollaborators.getJsonString document) := by
  right
  have key : Json.StringContents ['h', 'i', 's', 't', 'o', 'g', 'r', 'a', 'm', 's'] :=
    Json.stringContents_of_plain _ (by decide)
  have := Json.object_of_one
    (Json.member_of key (Json.element_of_value (Json.Derives.emptyArray [] Json.whitespace_nil)))
  exact ⟨by simpa using this, rfl⟩

/-- C2. Whatever the bucket mode and the sequence of `generate` calls (none,
only scalars, only histograms, any interleaving), once `finalize` has returned
the sink holds one syntactically valid JSON document, provided the string
sanitizer returns valid JSON string contents and the encoder returns a JSON
object or the empty string; and the request does run to that point whenever
asserts are compiled out or every histogram has consistent vectors. -/
theorem renderJson_valid (env : Collaborators) (mode : HistogramBucketsMode)
    (calls : List JsonCall)
    (hsan : ∀ s, Json.StringContents (env.jsonSanitize s).data)
    (henc : ∀ document, env.getJsonString document = "" ∨
      Json.IsObject (env.getJsonString document)) :
    (∀ out, renderJson env mode calls = .ok out → Json.Valid out) ∧
      ((env.assertsEnabled = false ∨ ∀ call ∈ calls, call.consistent) →
        ∃ out, renderJson env mode calls = .ok out ∧ Json.Valid out) := by
  have run : ∀ state, StatsJsonRender.generateAll env (StatsJsonRender.create "" mode) calls =
      .ok state → ∃ out, state.2.finalize env state.1 = .ok out ∧ Json.Valid out := by
    intro state hstate
    exact StatsJsonRender.finalize_streaming henc
      (StatsJsonRender.streaming_generateAll hsan calls
        (StatsJsonRender.streaming_create mode) hstate)
  constructor
  · intro out hout
    unfold renderJson at hout
    cases hstate : StatsJsonRender.generateAll env (StatsJsonRender.create "" mode) calls with
    | error e => rw [hstate] at hout; exact absurd hout (by simp)
    | ok state =>
      rw [hstate] at hout
      obtain ⟨out', hfin, hvalid⟩ := run state hstate
      simp only at hout
      rw [hfin] at hout
      injection hout with hout
      subst hout
      exact hvalid
  · intro htotal
    obtain ⟨state, hstate⟩ :=
      StatsJsonRender.generateAll_total env calls (StatsJsonRender.create "" mode) htotal
    obtain ⟨out, hfin, hvalid⟩ := run state hstate
    refine ⟨out, ?_, hvalid⟩
    unfold renderJson
    rw [hstate]
    exact hfin

theorem renderJson_valid_witness :
    Json.Valid "\x7b\"stats\":[\x7b\"name\":\"a\\\"b\",\"value\":\"x\"\x7d,\x7b\"histograms\":[]\x7d]\x7d" ∧
      Json.Valid "\x7b\"stats\":[]\x7d" ∧
      ∃ out, renderJson sampleCollaborators .Disjoint [.histogram "h" sampleHistogram] = .ok out ∧
        Json.Valid out :=
  ⟨(renderJson_valid sampleCollaborators .Cumulative
      [.text "a\"b" "x", .histogram "h" sampleHistogram]
      sampleSanitize_contents sampleEncoder_object).1 _ rfl,
   (renderJson_valid sampleCollaborators .NoBuckets []
      sampleSanitize_contents sampleEncoder_object).1 _ rfl,
   (renderJson_valid sampleCollaborators .Disjoint [.histogram "h" sampleHistogram]
      sampleSanitize_contents sampleEncoder_object).2
      (Or.inr fun call hcall => by
        rw [List.mem_singleton] at hcall
        subst hcall
        exact ⟨rfl, Nat.le_refl _, rfl, rfl, rfl, rfl⟩)⟩

namespace PrometheusStatsRender

theorem isNameChar_sanitizeChar (c : Char) : isNameChar (sanitizeChar c) = true := by
  unfold sanitizeChar
  by_cases h : isNameChar c = true
  · rw [if_pos h]; exact h
  · rw [if_neg h]; decide

theorem sanitizeChar_of_isNameChar {c : Char} (h : isNameChar c = true) : sanitizeChar c = c := by
  simp [sanitizeChar, h]

theorem replacement_data (c : Char) :
    (if prometheusRegex c = true then "_" else String.singleton c).data = [sanitizeChar c] := by
  unfold prometheusRegex sanitizeChar
  by_cases h : isNameChar c = true
  · simp [h, String.singleton]
  · simp only [Bool.not_eq_true] at h
    simp [h]

theorem sanitizeName_data (name : String) :
    (sanitizeName name).data = name.data.map sanitizeChar := by
  unfold sanitizeName replaceAll
  rw [String.data_join, List.map_map]
  generalize name.data = l
  induction l with
  | nil => rfl
  | cons c rest ih =>
    rw [List.map_cons, List.flatten_cons, ih, Function.comp_apply, replacement_data]
    rfl

theorem isNameChar_of_mem_sanitizeName {name : String} {c : Char}
    (h : c ∈ (sanitizeName name).data) : isNameChar c = true := by
  rw [sanitizeName_data, List.mem_map] at h
  obtain ⟨a, _, rfl⟩ := h
  exact isNameChar_sanitizeChar a

/-- The class `isNameChar` spelled out: `[a-zA-Z0-9_]`. -/
theorem isNameChar_iff (c : Char) :
    isNameChar c = true ↔
      ('a' ≤ c ∧ c ≤ 'z') ∨ ('A' ≤ c ∧ c ≤ 'Z') ∨ ('0' ≤ c ∧ c ≤ '9') ∨ c = '_' := by
  simp only [isNameChar, Char.isAlphanum, Char.isAlpha, Char.isUpper, Char.isLower, Char.isDigit,
    Bool.or_eq_true, Bool.and_eq_true, decide_eq_true_eq, beq_iff_eq, Char.le_def]
  simp only [ge_iff_le]
  tauto

/-- C3. `sanitizeName` is idempotent, and every character of its output lies in
`[A-Za-z0-9_]`. -/
theorem sanitizeName_idempotent_and_charset (x : String) :
    sanitizeName (sanitizeName x) = sanitizeName x ∧
      ∀ c ∈ (sanitizeName x).data,
        ('a' ≤ c ∧ c ≤ 'z') ∨ ('A' ≤ c ∧ c ≤ 'Z') ∨ ('0' ≤ c ∧ c ≤ '9') ∨ c = '_' := by
  refine ⟨?_, fun c h => (isNameChar_iff c).mp (isNameChar_of_mem_sanitizeName h)⟩
  apply string_eq_of_data
  rw [sanitizeName_data, sanitizeName_data, List.map_map]
  apply List.map_congr_left
  intro c _
  exact sanitizeChar_of_isNameChar (isNameChar_sanitizeChar c)

theorem head_any_isDigit_iff (s : String) :
    s.data.head?.any Char.isDigit = true ↔ startsWithDigit s := by
  unfold startsWithDigit
  cases h : s.data with
  | nil => simp
  | cons c rest => simp

theorem metricName_of_stripped {extracted_name stripped : String}
    {custom_namespaces : CustomStatNamespaces}
    (h : custom_namespaces.stripRegisteredPrefix extracted_name = some stripped) :
    metricName extracted_name custom_namespaces =
      if (sanitizeName stripped).isEmpty || (sanitizeName stripped).data.head?.any Char.isDigit
      then none else some (sanitizeName stripped) := by
  unfold metricName
  rw [h]

theorem metricName_of_unstripped {extracted_name : String}
    {custom_namespaces : CustomStatNamespaces}
    (h : custom_namespaces.stripRegisteredPrefix extracted_name = none) :
    metricName extracted_name custom_namespaces =
      some ("envoy_" ++ sanitizeName extracted_name) := by
  unfold metricName
  rw [h]

/-- C4. A name without a registered custom-namespace prefix is reported as
`envoy_` followed by its sanitized form; `foo.bar` becomes `envoy_foo_bar`. -/
theorem metricName_default_namespace (extracted_name : String)
    (custom_namespaces : CustomStatNamespaces)
    (h : custom_namespaces.stripRegisteredPrefix extracted_name = none) :
    metricName extracted_name custom_namespaces = some ("envoy_" ++ sanitizeName extracted_name) ∧
      (extracted_name = "foo.bar" →
        metricName extracted_name custom_namespaces = some "envoy_foo_bar") := by
  have key := metricName_of_unstripped h
  refine ⟨key, fun hname => ?_⟩
  rw [key, hname]
  decide

theorem metricName_default_namespace_witness :
    metricName "foo.bar" noNamespaces = some "envoy_foo_bar" :=
  (metricName_default_namespace "foo.bar" noNamespaces rfl).2 rfl

/-- C5. A name with a registered custom-namespace prefix whose stripped
remainder sanitizes to a string starting with a decimal digit has no metric
name: `metricName` returns absent. -/
theorem metricName_digit_start_dropped (extracted_name stripped : String)
    (custom_namespaces : CustomStatNamespaces)
    (h : custom_namespaces.stripRegisteredPrefix extracted_name = some stripped)
    (hdigit : startsWithDigit (sanitizeName stripped)) :
    metricName extracted_name custom_namespaces = none := by
  rw [metricName_of_stripped h, (head_any_isDigit_iff _).mpr hdigit]
  simp

theorem metricName_digit_start_dropped_witness :
    sanitizeName "3abc" = "3abc" ∧ metricName "ns.3abc" sampleNamespaces = none :=
  ⟨by decide,
   metricName_digit_start_dropped "ns.3abc" "3abc" sampleNamespaces rfl
     ⟨'3', "abc".data, by decide, by decide⟩⟩

/-- C6, as stated, fails: with the registry `ns`, the name `ns.` is stripped to
the empty remainder, whose sanitized form does not start with a digit, and yet
`metricName` returns absent. -/
theorem metricName_verbatim_unless_digit_fails :
    ¬ (∀ (extracted_name stripped : String) (custom_namespaces : CustomStatNamespaces),
        custom_namespaces.stripRegisteredPrefix extracted_name = some stripped →
        ¬ startsWithDigit (sanitizeName stripped) →
        metricName extracted_name custom_namespaces = some (sanitizeName stripped)) := by
  intro claim
  have h := claim "ns." "" sampleNamespaces rfl
    (by rintro ⟨d, rest, hdata, _⟩
        have hnil : (sanitizeName "").data = [] := by decide
        rw [hnil] at hdata
        exact List.noConfusion hdata)
  exact absurd h (by decide)

/-- C6, amended. A name with a registered custom-namespace prefix whose stripped
remainder sanitizes to a non-empty string not starting with a decimal digit is
reported as exactly that sanitized remainder; the metric is dropped exactly
when the sanitized remainder is empty or starts with a digit. -/
theorem metricName_custom_namespace (extracted_name stripped : String)
    (custom_namespaces : CustomStatNamespaces)
    (h : custom_namespaces.stripRegisteredPrefix extracted_name = some stripped) :
    ((sanitizeName stripped).data ≠ [] → ¬ startsWithDigit (sanitizeName stripped) →
        metricName extracted_name custom_namespaces = some (sanitizeName stripped)) ∧
      (metricName extracted_name custom_namespaces = none ↔
        ((sanitizeName stripped).data = [] ∨ startsWithDigit (sanitizeName stripped))) := by
  rw [metricName_of_stripped h]
  by_cases he : (sanitizeName stripped).data = []
  · have : (sanitizeName stripped).isEmpty = true := (isEmpty_eq_true_iff _).mpr he
    simp [this, he]
  · have hne : (sanitizeName stripped).isEmpty = false := by
      rw [← Bool.not_eq_true, isEmpty_eq_true_iff]; exact he
    by_cases hd : startsWithDigit (sanitizeName stripped)
    · simp [(head_any_isDigit_iff _).mpr hd, hd]
    · have : ((sanitizeName stripped).data.head?.any Char.isDigit) = false := by
        rw [← Bool.not_eq_true, head_any_isDigit_iff]; exact hd
      simp [hne, this, he, hd]

theorem metricName_custom_namespace_witness :
    metricName "ns.my.stat" sampleNamespaces = some "my_stat" :=
  (metricName_custom_namespace "ns.my.stat" "my.stat" sampleNamespaces rfl).1 (by decide)
    (by rintro ⟨d, rest, hdata, hdig⟩
        have hcons : (sanitizeName "my.stat").data = 'm' :: "y_stat".data := by decide
        rw [hcons] at hdata
        have hd : 'm' = d := List.head_eq_of_cons_eq hdata
        subst hd
        exact absurd hdig (by decide))

theorem metricName_shape (extracted_name result : String)
    (custom_namespaces : CustomStatNamespaces)
    (h : metricName extracted_name custom_namespaces = some result) :
    (∃ c rest, result.data = c :: rest ∧ (c.isAlpha = true ∨ c = '_')) ∧
      ∀ c ∈ result.data, isNameChar c = true := by
  cases hs : custom_namespaces.stripRegisteredPrefix extracted_name with
  | none =>
    rw [metricName_of_unstripped hs] at h
    have hr : result = "envoy_" ++ sanitizeName extracted_name := (Option.some.inj h).symm
    subst hr
    refine ⟨⟨'e', "nvoy_".data ++ (sanitizeName extracted_name).data, rfl, Or.inl (by decide)⟩, ?_⟩
    intro c hc
    rw [String.data_append, List.mem_append] at hc
    rcases hc with hc | hc
    · revert c; decide
    · exact isNameChar_of_mem_sanitizeName hc
  | some stripped =>
    rw [metricName_of_stripped hs] at h
    split at h
    · exact absurd h (by simp)
    · rename_i hcond
      have hr : result = sanitizeName stripped := (Option.some.inj h).symm
      subst hr
      simp only [Bool.or_eq_true, not_or, Bool.not_eq_true] at hcond
      obtain ⟨hne, hnd⟩ := hcond
      have hall : ∀ c ∈ (sanitizeName stripped).data, isNameChar c = true :=
        fun c hc => isNameChar_of_mem_sanitizeName hc
      refine ⟨?_, hall⟩
      cases hdata : (sanitizeName stripped).data with
      | nil =>
        rw [← Bool.not_eq_true, isEmpty_eq_true_iff] at hne
        exact absurd hdata hne
      | cons c rest =>
        refine ⟨c, rest, rfl, ?_⟩
        have hc : isNameChar c = true := hall c (by rw [hdata]; exact List.mem_cons_self _ _)
        rw [hdata] at hnd
        simp only [List.head?_cons, Option.any_some] at hnd
        unfold isNameChar Char.isAlphanum at hc
        simp only [Bool.or_eq_true, beq_iff_eq] at hc
        rcases hc with (ha | hd) | hu
        · exact Or.inl ha
        · rw [hd] at hnd; exact absurd hnd (by simp)
        · exact Or.inr hu

theorem isAlpha_iff (c : Char) :
    c.isAlpha = true ↔ ('a' ≤ c ∧ c ≤ 'z') ∨ ('A' ≤ c ∧ c ≤ 'Z') := by
  simp only [Char.isAlpha, Char.isUpper, Char.isLower, Bool.or_eq_true, Bool.and_eq_true,
    decide_eq_true_eq, Char.le_def]
  simp only [ge_iff_le]
  tauto

/-- C7. Whenever `metricName` returns a name, that name matches
`[a-zA-Z_][a-zA-Z0-9_]*`: it is non-empty, starts with a letter or an
underscore, and all its characters lie in `[a-zA-Z0-9_]`. -/
theorem metricName_is_identifier (extracted_name result : String)
    (custom_namespaces : CustomStatNamespaces)
    (h : metricName extracted_name custom_namespaces = some result) :
    (∃ c rest, result.data = c :: rest ∧
        (('a' ≤ c ∧ c ≤ 'z') ∨ ('A' ≤ c ∧ c ≤ 'Z') ∨ c = '_')) ∧
      ∀ c ∈ result.data,
        ('a' ≤ c ∧ c ≤ 'z') ∨ ('A' ≤ c ∧ c ≤ 'Z') ∨ ('0' ≤ c ∧ c ≤ '9') ∨ c = '_' := by
  obtain ⟨⟨c, rest, hdata, hfirst⟩, hall⟩ :=
    metricName_shape extracted_name result custom_namespaces h
  refine ⟨⟨c, rest, hdata, ?_⟩, fun d hd => (isNameChar_iff d).mp (hall d hd)⟩
  rcases hfirst with hfirst | hfirst
  · rcases (isAlpha_iff c).mp hfirst with hl | hu
    · exact Or.inl hl
    · exact Or.inr (Or.inl hu)
  · exact Or.inr (Or.inr hfirst)

theorem metricName_is_identifier_witness :
    (∃ c rest, "envoy_foo_bar".data = c :: rest ∧
        (('a' ≤ c ∧ c ≤ 'z') ∨ ('A' ≤ c ∧ c ≤ 'Z') ∨ c = '_')) ∧
      ∀ c ∈ "envoy_foo_bar".data,
        ('a' ≤ c ∧ c ≤ 'z') ∨ ('A' ≤ c ∧ c ≤ 'Z') ∨ ('0' ≤ c ∧ c ≤ '9') ∨ c = '_' :=
  metricName_is_identifier "foo.bar" "envoy_foo_bar" noNamespaces (by decide)

theorem pick_sanitizeValue (c : Char) (rest : List Char) :
    StrReplaceAll.pick [("\\", "\\\\"), ("\n", "\\n"), ("\"", "\\\"")] (c :: rest) =
      if c = '\\' then some ("\\", "\\\\")
      else if c = '\n' then some ("\n", "\\n")
      else if c = '"' then some ("\"", "\\\"")
      else none := by
  have e1 : ("\\" : String).data = ['\\'] := rfl
  have e2 : ("\n" : String).data = ['\n'] := rfl
  have e3 : ("\"" : String).data = ['"'] := rfl
  unfold StrReplaceAll.pick
  simp only [List.foldl, e1, e2, e3, List.isPrefixOf, Bool.and_true, beq_iff_eq, ne_eq,
    List.cons_ne_nil, not_false_eq_true, reduceCtorEq, true_and]
  by_cases h1 : c = '\\'
  · subst h1; simp
  · by_cases h2 : c = '\n'
    · subst h2; simp
    · by_cases h3 : c = '"'
      · subst h3; simp
      · simp [h1, h2, h3, eq_comm]

theorem go_sanitizeValue (l : List Char) :
    StrReplaceAll.go [("\\", "\\\\"), ("\n", "\\n"), ("\"", "\\\"")] 0 l =
      (l.map fun c => (escapeChar c).data).flatten := by
  induction l with
  | nil => rfl
  | cons c rest ih =>
    rw [StrReplaceAll.go, pick_sanitizeValue, List.map_cons, List.flatten_cons, ← ih]
    unfold escapeChar
    by_cases h1 : c = '\\'
    · simp only [h1, if_true]; rfl
    · by_cases h2 : c = '\n'
      · simp only [h2, if_true]; rfl
      · by_cases h3 : c = '"'
        · simp only [h3, if_true]; rfl
        · simp only [h1, h2, h3, if_false]; rfl

theorem sanitizeValue_data (v : String) :
    (sanitizeValue v).data = (v.data.map fun c => (escapeChar c).data).flatten := by
  unfold sanitizeValue StrReplaceAll
  exact go_sanitizeValue v.data

theorem quotesEscaped_cons {x : Char} {r : List Char} (hx : x ≠ '"') (hr : quotesEscaped r) :
    quotesEscaped (x :: r) := by
  intro i hi
  cases i with
  | zero =>
    simp only [List.getElem?_cons_zero, Option.some.injEq] at hi
    exact absurd hi hx
  | succ k =>
    rw [List.getElem?_cons_succ] at hi
    obtain ⟨j, rfl, hj⟩ := hr k hi
    exact ⟨j + 1, rfl, by rw [List.getElem?_cons_succ]; exact hj⟩

theorem quotesEscaped_escaped_quote {r : List Char} (hr : quotesEscaped r) :
    quotesEscaped ('\\' :: '"' :: r) := by
  intro i hi
  match i, hi with
  | 0, hi =>
    simp only [List.getElem?_cons_zero, Option.some.injEq] at hi
    exact absurd hi (by decide)
  | 1, _ => exact ⟨0, rfl, rfl⟩
  | k + 2, hi =>
    rw [List.getElem?_cons_succ, List.getElem?_cons_succ] at hi
    obtain ⟨j, rfl, hj⟩ := hr k hi
    exact ⟨j + 2, rfl, by rw [List.getElem?_cons_succ, List.getElem?_cons_succ]; exact hj⟩

theorem escapeChar_data (c : Char) :
    (escapeChar c).data =
      if c = '\\' then ['\\', '\\']
      else if c = '\n' then ['\\', 'n']
      else if c = '"' then ['\\', '"']
      else [c] := by
  unfold escapeChar
  split
  · rfl
  · split
    · rfl
    · split
      · rfl
      · rfl

theorem quotesEscaped_flatten (l : List Char) :
    quotesEscaped (l.map fun c => (escapeChar c).data).flatten := by
  induction l with
  | nil => intro i hi; simp at hi
  | cons c rest ih =>
    rw [List.map_cons, List.flatten_cons, escapeChar_data]
    split
    · exact quotesEscaped_cons (by decide) (quotesEscaped_cons (by decide) ih)
    · split
      · exact quotesEscaped_cons (by decide) (quotesEscaped_cons (by decide) ih)
      · split
        · exact quotesEscaped_escaped_quote ih
        · rename_i h
          exact quotesEscaped_cons h ih

theorem newline_not_mem_flatten (l : List Char) :
    '\n' ∉ (l.map fun c => (escapeChar c).data).flatten := by
  induction l with
  | nil => simp
  | cons c rest ih =>
    rw [List.map_cons, List.flatten_cons, List.mem_append, escapeChar_data]
    rintro (h | h)
    · split at h
      · exact absurd h (by decide)
      · split at h
        · exact absurd h (by decide)
        · split at h
          · exact absurd h (by decide)
          · rename_i h2 _
            rw [List.mem_singleton] at h
            exact h2 h.symm
    · exact ih h

/-- C9. `sanitizeValue` is the concatenation, character by character and in
order, of the escape of each character (backslash, newline and double quote
become backslash-backslash, backslash-n and backslash-quote; anything else is
kept); its output has no raw newline, and every double quote in it has a
backslash right before it. -/
theorem sanitizeValue_escapes (v : String) :
    sanitizeValue v = String.join (v.data.map escapeChar) ∧
      (∀ c, escapeChar c =
        if c = '\\' then "\\\\" else if c = '\n' then "\\n" else if c = '"' then "\\\""
        else String.singleton c) ∧
      '\n' ∉ (sanitizeValue v).data ∧
      ∀ i, (sanitizeValue v).data[i]? = some '"' →
        ∃ j, i = j + 1 ∧ (sanitizeValue v).data[j]? = some '\\' := by
  refine ⟨?_, fun _ => rfl, ?_, ?_⟩
  · apply string_eq_of_data
    rw [sanitizeValue_data, String.data_join, List.map_map]
    rfl
  · rw [sanitizeValue_data]
    exact newline_not_mem_flatten v.data
  · rw [sanitizeValue_data]
    exact quotesEscaped_flatten v.data

theorem outputStatType_total {StatType : Type} (g : StatType → String → String)
    (metrics : List StatType) (response name type : String) :
    outputStatType response metrics name (fun metric n => .ok (g metric n)) type =
      .ok (response ++ ("# TYPE " ++ name ++ " " ++ type ++ "\n") ++
        String.join (metrics.map fun metric => g metric name)) := by
  unfold outputStatType Buffer.add
  generalize response ++ ("# TYPE " ++ name ++ " " ++ type ++ "\n") = acc
  induction metrics generalizing acc with
  | nil => simp [join_nil, string_append_empty, pure, Except.pure]
  | cons m rest ih =>
    have step := ih (acc ++ g m name)
    simp only [List.foldlM_cons, Except.map, bind, Except.bind] at step ⊢
    rw [step, List.map_cons, join_cons, String.append_assoc]

theorem formattedTags_append_singleton (tags : List Tag) (tag : Tag) :
    formattedTags (tags ++ [tag]) =
      (if tags = [] then "" else formattedTags tags ++ ",") ++
        (sanitizeName tag.name_ ++ "=\"" ++ sanitizeValue tag.value_ ++ "\"") := by
  unfold formattedTags
  by_cases h : tags = []
  · subst h; rfl
  · rw [if_neg h, List.map_append, List.map_cons, List.map_nil,
      StrJoin_append_singleton _ _ _ (by simpa using h)]

/-- C10. The series line of a text readout is
`<name>{<formattedTags(tags ++ [text_value=v])>} 0` and a newline: the
`text_value` tag comes after the metric's own tags, its value is escaped by
`sanitizeValue`, and the sample value is the literal `0`; the text-readout
`generate` writes the header `# TYPE <name> gauge` before the series lines. -/
theorem textReadout_output (metric : TextReadout) (name response : String)
    (text_readout : List TextReadout) :
    generateTextReadoutOutput metric name =
        name ++ "\x7b" ++
          formattedTags (metric.tags ++ [{ name_ := "text_value", value_ := metric.value }]) ++
          "\x7d 0\n" ∧
      formattedTags (metric.tags ++ [{ name_ := "text_value", value_ := metric.value }]) =
        (if metric.tags = [] then "" else formattedTags metric.tags ++ ",") ++
          ("text_value=\"" ++ sanitizeValue metric.value ++ "\"") ∧
      generateTextReadout response name text_readout =
        .ok (response ++ ("# TYPE " ++ name ++ " gauge\n") ++
          String.join (text_readout.map fun m => generateTextReadoutOutput m name)) := by
  refine ⟨rfl, ?_, ?_⟩
  · rw [formattedTags_append_singleton]
    have : sanitizeName "text_value" = "text_value" := by decide
    simp only [this, String.append_assoc]
    rfl
  · unfold generateTextReadout
    rw [outputStatType_total]
    simp only [String.append_assoc]
    rfl

theorem histogramBucketLoop (env : Collaborators) (name hist_tags : String)
    (supported_buckets : List Double) (computed_buckets : List Nat)
    (hlen : supported_buckets.length = computed_buckets.length) :
    ∀ (remaining i : Nat) (output : String), i + remaining = supported_buckets.length →
      forLoop (histogramBucketBody env name hist_tags supported_buckets computed_buckets)
          i remaining output =
        .ok (output ++ String.join (List.zipWith
          (fun bucket value => name ++ "_bucket\x7b" ++ hist_tags ++ "le=\"" ++
            env.formatG32 bucket ++ "\"\x7d " ++ decimal value ++ "\n")
          (supported_buckets.drop i) (computed_buckets.drop i))) := by
  intro remaining
  induction remaining with
  | zero =>
    intro i output hi
    have h1 : supported_buckets.drop i = [] := List.drop_eq_nil_of_le (by omega)
    rw [forLoop, h1, List.zipWith_nil_left, join_nil, string_append_empty]
  | succ k ih =>
    intro i output hi
    have hi1 : i < supported_buckets.length := by omega
    have hi2 : i < computed_buckets.length := by omega
    have hb : vectorAt supported_buckets i = .ok supported_buckets[i] :=
      vectorAt_of_getElem? (List.getElem?_eq_getElem hi1)
    have hv : vectorAt computed_buckets i = .ok computed_buckets[i] :=
      vectorAt_of_getElem? (List.getElem?_eq_getElem hi2)
    rw [forLoop]
    simp only [histogramBucketBody, hb, hv, bind, Except.bind, pure, Except.pure]
    rw [ih (i + 1) _ (by omega), List.drop_eq_getElem_cons hi1, List.drop_eq_getElem_cons hi2,
      List.zipWith_cons_cons, join_cons, String.append_assoc]

/-- C8. For a parent histogram with as many cumulative counts as supported
boundaries, `generateHistogramOutput` returns exactly `n + 3` newline-terminated
lines: one `_bucket` line per boundary in boundary order with its count, the
`+Inf` bucket with the sample count, the `_sum` line and the `_count` line with
the same sample count; the labels before `le=` are the formatted tags and a
comma, or nothing when there are no tags.  With counts `[2, 5, 7]` on three
boundaries the bucket values are `2, 5, 7, sampleCount`. -/
theorem generateHistogramOutput_lines (env : Collaborators) (histogram : ParentHistogram)
    (name : String)
    (hlen : histogram.cumulativeStatistics.supportedBuckets.length =
      histogram.cumulativeStatistics.computedBuckets.length) :
    let stats := histogram.cumulativeStatistics
    let tags := formattedTags histogram.tags
    let labels := if histogram.tags = [] then "" else tags ++ ","
    let lines :=
      List.zipWith
        (fun bucket value => name ++ "_bucket\x7b" ++ labels ++ "le=\"" ++
          env.formatG32 bucket ++ "\"\x7d " ++ decimal value ++ "\n")
        stats.supportedBuckets stats.computedBuckets ++
      [name ++ "_bucket\x7b" ++ labels ++ "le=\"+Inf\"\x7d " ++ decimal stats.sampleCount ++ "\n",
       name ++ "_sum\x7b" ++ tags ++ "\x7d " ++ env.formatG32 stats.sampleSum ++ "\n",
       name ++ "_count\x7b" ++ tags ++ "\x7d " ++ decimal stats.sampleCount ++ "\n"]
    generateHistogramOutput env (.parent histogram) name = .ok (String.join lines) ∧
      lines.length = stats.supportedBuckets.length + 3 ∧
      (∀ line ∈ lines, line.data.getLast? = some '\n') ∧
      (∀ b₀ b₁ b₂, stats.supportedBuckets = [b₀, b₁, b₂] → stats.computedBuckets = [2, 5, 7] →
        lines =
          [name ++ "_bucket\x7b" ++ labels ++ "le=\"" ++ env.formatG32 b₀ ++ "\"\x7d " ++ "2" ++ "\n",
           name ++ "_bucket\x7b" ++ labels ++ "le=\"" ++ env.formatG32 b₁ ++ "\"\x7d " ++ "5" ++ "\n",
           name ++ "_bucket\x7b" ++ labels ++ "le=\"" ++ env.formatG32 b₂ ++ "\"\x7d " ++ "7" ++ "\n",
           name ++ "_bucket\x7b" ++ labels ++ "le=\"+Inf\"\x7d " ++ decimal stats.sampleCount ++ "\n",
           name ++ "_sum\x7b" ++ tags ++ "\x7d " ++ env.formatG32 stats.sampleSum ++ "\n",
           name ++ "_count\x7b" ++ tags ++ "\x7d " ++ decimal stats.sampleCount ++ "\n"]) := by
  intro stats tags labels lines
  have hlabels : (if histogram.tags.isEmpty = true then "" else tags ++ ",") = labels := by
    simp only [labels, List.isEmpty_iff]
  refine ⟨?_, ?_, ?_, ?_⟩
  · unfold generateHistogramOutput
    simp only [bind, Except.bind, pure, Except.pure]
    rw [histogramBucketLoop env name _ _ _ hlen _ 0 "" (by simp)]
    simp only [List.drop_zero, String.empty_append, hlabels, lines, join_append, join_cons,
      join_nil, string_append_empty, String.append_assoc]
  · simp only [lines, stats, List.length_append, List.length_zipWith, List.length_cons,
      List.length_nil]
    omega
  · intro line hline
    simp only [lines, List.mem_append, List.mem_cons, List.mem_singleton, List.not_mem_nil,
      or_false] at hline
    rcases hline with hline | hline | hline | hline
    · obtain ⟨bucket, value, hline⟩ := exists_of_mem_zipWith _ _ _ _ hline
      rw [hline]; exact getLast?_append_newline _
    · rw [hline]; exact getLast?_append_newline _
    · rw [hline]; exact getLast?_append_newline _
    · rw [hline]; exact getLast?_append_newline _
  · intro b₀ b₁ b₂ hb hc
    simp only [lines, hb, hc, List.zipWith_cons_cons, List.zipWith_nil_left, List.cons_append,
      List.nil_append]
    rfl

theorem generateHistogramOutput_lines_witness :
    generateHistogramOutput sampleCollaborators (.parent sampleHistogram) "envoy_h" =
      .ok ("envoy_h_bucket\x7bzone=\"a\",le=\"0.5\"\x7d 2\n" ++
        "envoy_h_bucket\x7bzone=\"a\",le=\"1\"\x7d 5\n" ++
        "envoy_h_bucket\x7bzone=\"a\",le=\"5\"\x7d 7\n" ++
        "envoy_h_bucket\x7bzone=\"a\",le=\"+Inf\"\x7d 8\n" ++
        "envoy_h_sum\x7bzone=\"a\"\x7d 12.5\n" ++
        "envoy_h_count\x7bzone=\"a\"\x7d 8\n") :=
  (generateHistogramOutput_lines sampleCollaborators sampleHistogram "envoy_h" rfl).1

end PrometheusStatsRender

/-! ## Text renderer: scalars -/

namespace StatsTextRender

/-- C17. The numeric `generate` of the text renderer appends exactly the name,
`: `, the decimal value and a newline: the earlier sink content stays as a
prefix, and the renderer, which the call only reads, keeps its mode. -/
theorem generateNumeric_appends (self : StatsTextRender) (response name : String) (value : Nat) :
    generateNumeric self response name value = response ++ (name ++ ": " ++ decimal value ++ "\n") ∧
      response.data <+: (generateNumeric self response name value).data := by
  have h : generateNumeric self response name value =
      response ++ (name ++ ": " ++ decimal value ++ "\n") := by
    simp only [generateNumeric, Buffer.addFragments, join_cons, join_nil, string_append_empty,
      String.append_assoc]
  refine ⟨h, ?_⟩
  rw [h, String.data_append]
  exact List.prefix_append _ _

theorem unescapedQuoteFrom_of_no_quote (l : List Char) (h : '"' ∉ l) :
    ∀ escaped, unescapedQuoteFrom escaped l = false := by
  induction l with
  | nil => intro escaped; cases escaped <;> rfl
  | cons c rest ih =>
    have hrest : '"' ∉ rest := fun hm => h (List.mem_cons_of_mem _ hm)
    have hc : c ≠ '"' := fun hm => h (hm ▸ List.mem_cons_self _ _)
    intro escaped
    cases escaped with
    | true => exact ih hrest false
    | false =>
      rw [unescapedQuoteFrom]
      by_cases hb : c = '\\'
      · rw [if_pos hb]; exact ih hrest true
      · rw [if_neg hb, if_neg hc]; exact ih hrest false

theorem generateText_eq (self : StatsTextRender) (response name value : String) :
    generateText self response name value = response ++ (name ++ ": \"" ++ value ++ "\"\n") := by
  simp only [generateText, Buffer.addFragments, join_cons, join_nil, string_append_empty,
    String.append_assoc]

/-- C18, as stated, fails: for the value `a"b` the emitted line is `n: "a"b"`,
and the text between the opening and the closing quote holds an unescaped
double quote. -/
theorem generateText_quotes_unescaped_fails :
    ¬ (∀ (self : StatsTextRender) (name value : String), ∃ inner : String,
        generateText self "" name value = name ++ ": \"" ++ inner ++ "\"\n" ∧
          hasUnescapedQuote inner = false) := by
  intro claim
  obtain ⟨inner, hline, hquote⟩ := claim ⟨.NoBuckets⟩ "n" "a\"b"
  have hdata := congrArg String.data hline
  rw [generateText_eq] at hdata
  simp only [String.data_append] at hdata
  have hinner : ['a', '"', 'b'] ++ ['"', '\n'] = inner.data ++ ['"', '\n'] := by
    have e : ("" : String).data ++ (("n" : String).data ++ (": \"" : String).data ++
        ("a\"b" : String).data ++ ("\"\n" : String).data) =
        ['n', ':', ' ', '"'] ++ (['a', '"', 'b'] ++ ['"', '\n']) := rfl
    have e' : ("n" : String).data ++ (": \"" : String).data ++ inner.data ++
        ("\"\n" : String).data = ['n', ':', ' ', '"'] ++ (inner.data ++ ['"', '\n']) := by
      show (['n'] ++ [':', ' ', '"'] ++ inner.data ++ ['"', '\n']) = _
      simp
    rw [e, e'] at hdata
    exact List.append_cancel_left hdata
  have hval : inner.data = ['a', '"', 'b'] := (List.append_cancel_right hinner).symm
  unfold hasUnescapedQuote at hquote
  rw [hval] at hquote
  exact absurd hquote (by decide)

/-- C18, amended. The text `generate` of the text renderer emits the name, `: `,
an opening quote, the value verbatim (it is not escaped), a closing quote and a
newline; the text between the two quotes is free of unescaped quotes whenever
the value holds no double-quote character. -/
theorem generateText_verbatim (self : StatsTextRender) (response name value : String) :
    generateText self response name value = response ++ (name ++ ": \"" ++ value ++ "\"\n") ∧
      ('"' ∉ value.data → hasUnescapedQuote value = false) :=
  ⟨generateText_eq self response name value,
   fun h => unescapedQuoteFrom_of_no_quote value.data h false⟩

theorem generateText_verbatim_witness :
    generateText ⟨.Disjoint⟩ "" "version" "v1.2" = "version: \"v1.2\"\n" ∧
      hasUnescapedQuote "v1.2" = false :=
  ⟨(generateText_verbatim ⟨.Disjoint⟩ "" "version" "v1.2").1,
   (generateText_verbatim ⟨.Disjoint⟩ "" "version" "v1.2").2 (by decide)⟩

end StatsTextRender

/-! ## JSON renderer: buffering histograms -/

namespace StatsJsonRender

theorem summarizeLoop_eq (computed_quantiles cumulative_quantiles : List Double) :
    ∀ (remaining i : Nat) (values : List ProtoValue),
      i + remaining ≤ computed_quantiles.length → i + remaining ≤ cumulative_quantiles.length →
      forLoop (summarizeBody computed_quantiles cumulative_quantiles) i remaining values =
        .ok (values ++ List.zipWith quantilePair
          ((computed_quantiles.drop i).take remaining)
          ((cumulative_quantiles.drop i).take remaining)) := by
  intro remaining
  induction remaining with
  | zero => intro i values _ _; simp [forLoop]
  | succ k ih =>
    intro i values h₁ h₂
    have hi₁ : i < computed_quantiles.length := by omega
    have hi₂ : i < cumulative_quantiles.length := by omega
    rw [forLoop]
    simp only [summarizeBody, vectorAt_ok computed_quantiles hi₁,
      vectorAt_ok cumulative_quantiles hi₂, bind, Except.bind, pure, Except.pure]
    rw [ih (i + 1) _ (by omega) (by omega), List.drop_eq_getElem_cons hi₁,
      List.drop_eq_getElem_cons hi₂, List.take_succ_cons, List.take_succ_cons,
      List.zipWith_cons_cons, List.append_assoc]
    rfl

theorem summarizeBuckets_eq {env : Collaborators} {self after : StatsJsonRender} {name : String}
    {histogram : ParentHistogram} (h : summarizeBuckets env self name histogram = .ok after) :
    ∃ values, after =
      { self with
        found_used_histogram_ := true
        histograms_obj_ :=
          if self.found_used_histogram_ = true then self.histograms_obj_
          else self.histograms_obj_.set "supported_quantiles" (supportedQuantilesValue env)
        histogram_array_ := self.histogram_array_ ++
          [.structValue [("name", .stringValue name), ("values", .listValue values)]] } := by
  unfold summarizeBuckets at h
  simp only [bind, Except.bind, pure, Except.pure] at h
  split at h
  · exact absurd h (by simp)
  · split at h
    · exact absurd h (by simp)
    · split at h
      · exact absurd h (by simp)
      · rename_i values _
        injection h with h
        subst h
        refine ⟨values, ?_⟩
        by_cases hf : self.found_used_histogram_ = true
        · simp [hf, ProtoMap.set]
        · simp [hf, ProtoMap.set, supportedQuantilesValue]

theorem collectBuckets_eq {env : Collaborators} {self after : StatsJsonRender} {name : String}
    {histogram : ParentHistogram} {interval_buckets cumulative_buckets : List Nat}
    (h : collectBuckets env self name histogram interval_buckets cumulative_buckets = .ok after) :
    ∃ buckets, after =
      { self with
        histogram_array_ := self.histogram_array_ ++
          [.structValue [("name", .stringValue name), ("buckets", .listValue buckets)]] } := by
  unfold collectBuckets at h
  simp only [bind, Except.bind, pure, Except.pure] at h
  split at h
  · exact absurd h (by simp)
  · split at h
    · exact absurd h (by simp)
    · split at h
      · exact absurd h (by simp)
      · rename_i buckets _
        injection h with h
        subst h
        exact ⟨buckets, by simp [ProtoMap.set]⟩

end StatsJsonRender

namespace StatsJsonRender

theorem generateHistogram_exact {env : Collaborators} {self after : StatsJsonRender}
    {response response' name : String} {histogram : ParentHistogram}
    (h : generateHistogram env self response name histogram = .ok (response', after)) :
    response' = response ∧ ∃ key items, after =
      { self with
        found_used_histogram_ :=
          if self.histogram_buckets_mode_ = .NoBuckets then true else self.found_used_histogram_
        histograms_obj_ :=
          if self.histogram_buckets_mode_ = .NoBuckets ∧ self.found_used_histogram_ = false then
            self.histograms_obj_.set "supported_quantiles" (supportedQuantilesValue env)
          else self.histograms_obj_
        histogram_array_ := self.histogram_array_ ++
          [.structValue [("name", .stringValue name), (key, .listValue items)]] } := by
  unfold generateHistogram at h
  split at h
  · rename_i hmode
    cases hs : summarizeBuckets env self name histogram with
    | error e => rw [hs] at h; exact absurd h (by simp [Except.map])
    | ok st =>
      rw [hs] at h
      simp only [Except.map, Except.ok.injEq, Prod.mk.injEq] at h
      obtain ⟨rfl, rfl⟩ := h
      obtain ⟨values, rfl⟩ := summarizeBuckets_eq hs
      refine ⟨rfl, "values", values, ?_⟩
      by_cases hf : self.found_used_histogram_ = true
      · simp [hmode, hf]
      · simp [hmode, hf]
  · rename_i hmode
    cases hs : collectBuckets env self name histogram
        histogram.intervalStatistics.computedBuckets
        histogram.cumulativeStatistics.computedBuckets with
    | error e => rw [hs] at h; exact absurd h (by simp [Except.map])
    | ok st =>
      rw [hs] at h
      simp only [Except.map, Except.ok.injEq, Prod.mk.injEq] at h
      obtain ⟨rfl, rfl⟩ := h
      obtain ⟨buckets, rfl⟩ := collectBuckets_eq hs
      exact ⟨rfl, "buckets", buckets, by simp [hmode]⟩
  · rename_i hmode
    cases hs : collectBuckets env self name histogram
        histogram.intervalStatistics.computeDisjointBuckets
        histogram.cumulativeStatistics.computeDisjointBuckets with
    | error e => rw [hs] at h; exact absurd h (by simp [Except.map])
    | ok st =>
      rw [hs] at h
      simp only [Except.map, Except.ok.injEq, Prod.mk.injEq] at h
      obtain ⟨rfl, rfl⟩ := h
      obtain ⟨buckets, rfl⟩ := collectBuckets_eq hs
      exact ⟨rfl, "buckets", buckets, by simp [hmode]⟩

/-- C11. The histogram `generate` of the JSON renderer, whenever it returns,
leaves the sink and `delim_` (and the mode and the container) as they were and
appends exactly one entry at the end of `histogram_array_`; outside `NoBuckets`
mode nothing else changes, and in `NoBuckets` mode the flag is set and, on the
first call only, the supported quantiles are recorded.  It returns whenever
asserts are compiled out or the histogram's vectors are consistent. -/
theorem generateHistogram_frame (env : Collaborators) (self : StatsJsonRender)
    (response name : String) (histogram : ParentHistogram) :
    (∀ response' after,
      generateHistogram env self response name histogram = .ok (response', after) →
        response' = response ∧
        after.delim_ = self.delim_ ∧
        after.histogram_buckets_mode_ = self.histogram_buckets_mode_ ∧
        after.histograms_obj_container_ = self.histograms_obj_container_ ∧
        (∃ entry, after.histogram_array_ = self.histogram_array_ ++ [entry]) ∧
        (self.histogram_buckets_mode_ ≠ .NoBuckets →
          after.found_used_histogram_ = self.found_used_histogram_ ∧
          after.histograms_obj_ = self.histograms_obj_) ∧
        (self.histogram_buckets_mode_ = .NoBuckets →
          after.found_used_histogram_ = true ∧
          after.histograms_obj_ =
            if self.found_used_histogram_ = true then self.histograms_obj_
            else self.histograms_obj_.set "supported_quantiles"
              (.listValue (env.defaultSupportedQuantiles.map fun quantile =>
                .numberValue (env.timesHundred quantile))))) ∧
      ((env.assertsEnabled = false ∨ histogram.consistent) →
        ∃ after, generateHistogram env self response name histogram = .ok (response, after)) := by
  refine ⟨?_, generateHistogram_total env self response name histogram⟩
  intro response' after h
  obtain ⟨hresp, key, items, rfl⟩ := generateHistogram_exact h
  refine ⟨hresp, rfl, rfl, rfl, ⟨_, rfl⟩, ?_, ?_⟩
  · intro hmode
    simp [hmode]
  · intro hmode
    by_cases hf : self.found_used_histogram_ = true
    · simp [hmode, hf]
    · simp [hmode, hf, supportedQuantilesValue]

theorem generateHistogram_frame_witness :
    ∃ after, generateHistogram sampleCollaborators (create "" .Cumulative).2 "sink" "h"
        sampleHistogram = .ok ("sink", after) :=
  (generateHistogram_frame sampleCollaborators (create "" .Cumulative).2 "sink" "h"
    sampleHistogram).2 (Or.inr ⟨rfl, Nat.le_refl _, rfl, rfl, rfl, rfl⟩)

/-- C15. In `NoBuckets` mode, for a histogram whose interval and cumulative
computed quantiles are as many as the supported quantiles, `summarizeBuckets`
buffers an entry with the given name and a `values` list holding one element
per supported quantile, in order; in element `i` the field `interval` is null
exactly when the `i`-th interval quantile is NaN and is that number otherwise,
and likewise for `cumulative`. -/
theorem summarizeBuckets_entry (env : Collaborators) (self : StatsJsonRender) (name : String)
    (histogram : ParentHistogram)
    (h₁ : histogram.intervalStatistics.computedQuantiles.length =
      histogram.intervalStatistics.supportedQuantiles.length)
    (h₂ : histogram.cumulativeStatistics.computedQuantiles.length =
      histogram.intervalStatistics.supportedQuantiles.length) :
    let values := List.zipWith
      (fun interval cumulative => ProtoValue.structValue
        [("interval", quantileValue interval), ("cumulative", quantileValue cumulative)])
      histogram.intervalStatistics.computedQuantiles
      histogram.cumulativeStatistics.computedQuantiles
    (∃ after, summarizeBuckets env self name histogram = .ok after ∧
        after.histogram_array_ = self.histogram_array_ ++
          [.structValue [("name", .stringValue name), ("values", .listValue values)]]) ∧
      values.length = histogram.intervalStatistics.supportedQuantiles.length ∧
      ∀ x : Double, (quantileValue x = .nullValue ↔ x.isnan = true) ∧
        (x.isnan = false → quantileValue x = .numberValue x) := by
  intro values
  refine ⟨?_, ?_, ?_⟩
  · obtain ⟨after, hafter⟩ := summarizeBuckets_total env self name histogram
      (Or.inr ⟨by omega, by omega⟩)
    refine ⟨after, hafter, ?_⟩
    have hloop := summarizeLoop_eq histogram.intervalStatistics.computedQuantiles
      histogram.cumulativeStatistics.computedQuantiles
      (min histogram.intervalStatistics.computedQuantiles.length
        (min histogram.cumulativeStatistics.computedQuantiles.length
          histogram.intervalStatistics.supportedQuantiles.length)) 0 [] (by omega) (by omega)
    have hmin : min histogram.intervalStatistics.computedQuantiles.length
        (min histogram.cumulativeStatistics.computedQuantiles.length
          histogram.intervalStatistics.supportedQuantiles.length) =
        histogram.intervalStatistics.supportedQuantiles.length := by omega
    unfold summarizeBuckets at hafter
    simp only [bind, Except.bind, pure, Except.pure, hloop] at hafter
    split at hafter
    · exact absurd hafter (by simp)
    · split at hafter
      · exact absurd hafter (by simp)
      · injection hafter with hafter
        subst hafter
        simp only [hmin, List.drop_zero, List.nil_append]
        rw [← h₁, List.take_length]
        rw [h₁, ← h₂, List.take_length]
        by_cases hf : self.found_used_histogram_ = true
        · simp [hf, ProtoMap.set, values]
          rfl
        · simp [hf, ProtoMap.set, values]
          rfl
  · simp only [values, List.length_zipWith]
    omega
  · intro x
    unfold quantileValue
    cases hx : x.isnan <;> simp

end StatsJsonRender

namespace StatsJsonRender

theorem summarizeBuckets_entry_witness :
    ∃ after, summarizeBuckets sampleCollaborators (create "" .NoBuckets).2 "h"
        sampleQuantileHistogram = .ok after ∧
      after.histogram_array_ =
        [.structValue [("name", .stringValue "h"), ("values", .listValue
          [.structValue [("interval", .nullValue),
             ("cumulative", .numberValue ⟨0x3FF0000000000000⟩)],
           .structValue [("interval", .numberValue ⟨0x4014000000000000⟩),
             ("cumulative", .numberValue ⟨0x4014000000000000⟩)]])]] :=
  (summarizeBuckets_entry sampleCollaborators (create "" .NoBuckets).2 "h"
    sampleQuantileHistogram rfl rfl).1

theorem tracked_create (env : Collaborators) (response : String) (mode : HistogramBucketsMode) :
    Tracked env mode [] (create response mode).2 where
  mode_eq := rfl
  container := rfl
  flag := by simp [create]
  header := rfl
  names := rfl

theorem tracked_generate {env : Collaborators} {mode : HistogramBucketsMode}
    {seen : List JsonCall} {state state' : String × StatsJsonRender} {call : JsonCall}
    (h : Tracked env mode seen state.2) (hstep : generate env state call = .ok state') :
    Tracked env mode (seen ++ [call]) state'.2 := by
  obtain ⟨response, self⟩ := state
  obtain ⟨hmode, hcontainer, hflag, hheader, hnames⟩ := h
  simp only at hmode hcontainer hflag hheader hnames
  cases call with
  | numeric name value =>
    simp only [generate, Except.ok.injEq] at hstep
    subst hstep
    exact ⟨hmode, hcontainer, by simpa [generateNumeric] using hflag, hheader,
      by simpa [generateNumeric, JsonCall.histogramName] using hnames⟩
  | text name value =>
    simp only [generate, Except.ok.injEq] at hstep
    subst hstep
    exact ⟨hmode, hcontainer, by simpa [generateText] using hflag, hheader,
      by simpa [generateText, JsonCall.histogramName] using hnames⟩
  | histogram name histogram =>
    obtain ⟨response', after⟩ := state'
    simp only [generate] at hstep
    obtain ⟨-, key, items, rfl⟩ := generateHistogram_exact hstep
    refine ⟨hmode, hcontainer, ?_, ?_, ?_⟩
    · simp only [hmode]
      by_cases hm : mode = .NoBuckets
      · simp only [hm, if_true, true_and, true_iff]
        exact ⟨name, histogram, by simp⟩
      · have hfalse : self.found_used_histogram_ = false := by
          rw [← Bool.not_eq_true]
          exact fun hf => hm (hflag.mp hf).1
        simp [hm, hfalse]
    · simp only [hmode]
      by_cases hm : mode = .NoBuckets
      · by_cases hf : self.found_used_histogram_ = true
        · simp [hm, hf, hheader]
        · simp [hm, hf, hheader, ProtoMap.set]
      · have hfalse : self.found_used_histogram_ = false := by
          rw [← Bool.not_eq_true]
          exact fun hf => hm (hflag.mp hf).1
        simp [hm, hfalse, hheader]
    · simp only [List.map_append, hnames, List.filterMap_append, List.map_cons, List.map_nil,
        List.filterMap_cons, List.filterMap_nil, JsonCall.histogramName]
      simp [ProtoValue.entryName, ProtoMap.find]

theorem tracked_generateAll {env : Collaborators} {mode : HistogramBucketsMode}
    (calls : List JsonCall) :
    ∀ {seen : List JsonCall} {state state' : String × StatsJsonRender},
      Tracked env mode seen state.2 → generateAll env state calls = .ok state' →
      Tracked env mode (seen ++ calls) state'.2 := by
  induction calls with
  | nil =>
    intro seen state state' h hrun
    simp only [generateAll, Except.ok.injEq] at hrun
    subst hrun
    simpa using h
  | cons call rest ih =>
    intro seen state state' h hrun
    rw [generateAll] at hrun
    cases hstep : generate env state call with
    | error e => rw [hstep] at hrun; exact absurd hrun (by simp)
    | ok mid =>
      rw [hstep] at hrun
      have := ih (tracked_generate h hstep) hrun
      simpa using this

theorem tracked_of_run {env : Collaborators} {mode : HistogramBucketsMode} {response : String}
    {calls : List JsonCall} {state : String × StatsJsonRender}
    (hrun : generateAll env (create response mode) calls = .ok state) :
    Tracked env mode calls state.2 := by
  have := tracked_generateAll calls (tracked_create env response mode) hrun
  simpa using this

end StatsJsonRender

namespace StatsJsonRender

theorem generateAll_scalarRun {env : Collaborators} (calls : List JsonCall) :
    ∀ {state state' : String × StatsJsonRender}, generateAll env state calls = .ok state' →
      (state'.1, state'.2.delim_) = scalarRun env (state.1, state.2.delim_) calls := by
  induction calls with
  | nil =>
    intro state state' hrun
    simp only [generateAll, Except.ok.injEq] at hrun
    subst hrun
    rfl
  | cons call rest ih =>
    intro state state' hrun
    rw [generateAll] at hrun
    cases hstep : generate env state call with
    | error e => rw [hstep] at hrun; exact absurd hrun (by simp)
    | ok mid =>
      rw [hstep] at hrun
      rw [ih hrun]
      cases call with
      | numeric name value =>
        simp only [generate, Except.ok.injEq] at hstep
        subst hstep
        rfl
      | text name value =>
        simp only [generate, Except.ok.injEq] at hstep
        subst hstep
        rfl
      | histogram name histogram =>
        obtain ⟨response', after⟩ := mid
        simp only [generate] at hstep
        obtain ⟨hresp, hb, -⟩ := generateHistogram_ok hstep
        simp only [scalarRun, hresp, hb.delim]

theorem scalarRun_filter (env : Collaborators) (calls : List JsonCall) :
    ∀ state, scalarRun env state (calls.filter JsonCall.isScalar) = scalarRun env state calls := by
  induction calls with
  | nil => intro state; rfl
  | cons call rest ih =>
    intro state
    cases call with
    | numeric name value => simp only [List.filter, JsonCall.isScalar, scalarRun, ih]
    | text name value => simp only [List.filter, JsonCall.isScalar, scalarRun, ih]
    | histogram name histogram => simp only [List.filter, JsonCall.isScalar, scalarRun, ih]

theorem scalarRun_delim (env : Collaborators) (calls : List JsonCall) :
    ∀ state, (scalarRun env state calls).2 =
      if calls.any JsonCall.isScalar = true then "," else state.2 := by
  induction calls with
  | nil => intro state; rfl
  | cons call rest ih =>
    intro state
    cases call with
    | numeric name value =>
      rw [scalarRun, ih]
      simp [JsonCall.isScalar]
    | text name value =>
      rw [scalarRun, ih]
      simp [JsonCall.isScalar]
    | histogram name histogram =>
      rw [scalarRun, ih]
      simp [JsonCall.isScalar]

theorem histogram_array_ne_nil_iff {env : Collaborators} {mode : HistogramBucketsMode}
    {calls : List JsonCall} {self : StatsJsonRender} (h : Tracked env mode calls self) :
    self.histogram_array_ ≠ [] ↔ ∃ name histogram, JsonCall.histogram name histogram ∈ calls := by
  have hlen := congrArg List.length h.names
  simp only [List.length_map] at hlen
  constructor
  · intro hne
    have hpos : 0 < (calls.filterMap JsonCall.histogramName).length := by
      rw [← hlen]; exact List.length_pos.mpr hne
    obtain ⟨n, hn⟩ := List.exists_mem_of_length_pos hpos
    obtain ⟨call, hcall, hname⟩ := List.mem_filterMap.mp hn
    cases call with
    | numeric _ _ => simp [JsonCall.histogramName] at hname
    | text _ _ => simp [JsonCall.histogramName] at hname
    | histogram name histogram => exact ⟨name, histogram, hcall⟩
  · rintro ⟨name, histogram, hmem⟩ hnil
    rw [hnil] at hlen
    have : name ∈ calls.filterMap JsonCall.histogramName :=
      List.mem_filterMap.mpr ⟨_, hmem, rfl⟩
    have h0 : calls.filterMap JsonCall.histogramName = [] :=
      List.length_eq_zero.mp hlen.symm
    rw [h0] at this
    exact absurd this (by simp)

theorem histogramsDocument_tracked {env : Collaborators} {mode : HistogramBucketsMode}
    {calls : List JsonCall} {self : StatsJsonRender} (h : Tracked env mode calls self)
    (hne : self.histogram_array_ ≠ []) :
    histogramsDocument env self =
      .ok (.structValue [("histograms",
        if mode = .NoBuckets then
          .structValue [("supported_quantiles", supportedQuantilesValue env),
            ("computed_quantiles", .listValue self.histogram_array_)]
        else .listValue self.histogram_array_)]) := by
  have hcalls := (histogram_array_ne_nil_iff h).mp hne
  unfold histogramsDocument
  by_cases hm : mode = .NoBuckets
  · have hf : self.found_used_histogram_ = true := h.flag.mpr ⟨hm, hcalls⟩
    have hheader := h.header
    rw [if_pos hf] at hheader
    rw [if_pos hf, if_pos hm, h.mode_eq, hm, h.container, hheader]
    simp only [bind, Except.bind, pure, Except.pure]
    rw [show ((HistogramBucketsMode.NoBuckets == HistogramBucketsMode.NoBuckets) = true) from rfl,
      ASSERT_true]
    simp [ProtoMap.set]
  · have hf : ¬ self.found_used_histogram_ = true := fun hf => hm (h.flag.mp hf).1
    rw [if_neg hf, if_neg hm, h.mode_eq, h.container]
    simp only [bind, Except.bind, pure, Except.pure]
    have hne' : (mode != HistogramBucketsMode.NoBuckets) = true := by
      rw [bne_iff_ne]; exact hm
    rw [hne', ASSERT_true]
    simp [ProtoMap.set]

theorem finalize_of_document {env : Collaborators} {self : StatsJsonRender} {response : String}
    {document : ProtoValue} (hne : self.histogram_array_ ≠ [])
    (hdoc : histogramsDocument env self = .ok document) :
    finalize env self response =
      .ok (if env.getJsonString document = "" then response ++ "]\x7d"
        else response ++ (self.delim_ ++ env.getJsonString document) ++ "]\x7d") := by
  unfold finalize
  have hlen : self.histogram_array_.length > 0 := List.length_pos.mpr hne
  rw [if_pos hlen, hdoc]
  simp only [bind, Except.bind, pure, Except.pure]
  by_cases he : env.getJsonString document = ""
  · rw [if_pos he, he]
    rfl
  · have hnonempty : (env.getJsonString document).isEmpty = false := by
      rw [← Bool.not_eq_true, String.isEmpty_iff]; exact he
    rw [if_neg he, hnonempty]
    simp only [Bool.not_false, if_true, Buffer.add, Buffer.addFragments, join_cons, join_nil,
      string_append_empty]

theorem finalize_of_empty_array (env : Collaborators) {self : StatsJsonRender}
    (response : String) (h : self.histogram_array_ = []) :
    finalize env self response = .ok (response ++ "]\x7d") := by
  unfold finalize
  rw [h]
  rfl

end StatsJsonRender

namespace StatsJsonRender

theorem delim_of_run {env : Collaborators} {mode : HistogramBucketsMode} {response : String}
    {calls : List JsonCall} {state : String × StatsJsonRender}
    (hrun : generateAll env (create response mode) calls = .ok state) :
    state.2.delim_ = if calls.any JsonCall.isScalar = true then "," else "" := by
  have h := congrArg Prod.snd (generateAll_scalarRun calls hrun)
  simp only at h
  rw [h, scalarRun_delim]
  rfl

/-- C12. When at least one histogram is buffered and the encoder returns a
non-empty string `s`, `finalize` appends exactly a comma, `s` and `]}` if a
scalar `generate` call was made before, and exactly `s` and `]}` with no comma
if none was: the comma is written if and only if scalar stats precede the
histogram block. -/
theorem finalize_comma_iff_scalars (env : Collaborators) (mode : HistogramBucketsMode)
    (response : String) (calls : List JsonCall) (state : String × StatsJsonRender)
    (hrun : generateAll env (create response mode) calls = .ok state)
    (hbuffered : state.2.histogram_array_ ≠ []) :
    (∃ document, histogramsDocument env state.2 = .ok document) ∧
      ∀ document, histogramsDocument env state.2 = .ok document →
        env.getJsonString document ≠ "" →
        finalize env state.2 state.1 =
          .ok (state.1 ++ ((if calls.any JsonCall.isScalar = true then "," else "") ++
            env.getJsonString document ++ "]\x7d")) := by
  have htracked := tracked_of_run hrun
  refine ⟨⟨_, histogramsDocument_tracked htracked hbuffered⟩, ?_⟩
  intro document hdoc hs
  rw [finalize_of_document hbuffered hdoc, if_neg hs, delim_of_run hrun]
  simp only [String.append_assoc]

theorem finalize_comma_iff_scalars_witness :
    (∃ state, generateAll sampleCollaborators (create "" .Cumulative)
        [.numeric "a" 1, .histogram "h" sampleHistogram] = .ok state ∧
      finalize sampleCollaborators state.2 state.1 =
        .ok "\x7b\"stats\":[\x7b\"name\":\"a\",\"value\":1\x7d,\x7b\"histograms\":[]\x7d]\x7d") ∧
    (∃ state, generateAll sampleCollaborators (create "" .Cumulative)
        [.histogram "h" sampleHistogram] = .ok state ∧
      finalize sampleCollaborators state.2 state.1 =
        .ok "\x7b\"stats\":[\x7b\"histograms\":[]\x7d]\x7d") :=
  ⟨⟨_, rfl, (finalize_comma_iff_scalars sampleCollaborators .Cumulative ""
      [.numeric "a" 1, .histogram "h" sampleHistogram] _ rfl (by simp)).2 _ rfl
      (show ("\x7b\"histograms\":[]\x7d" : String) ≠ "" by decide)⟩,
   ⟨_, rfl, (finalize_comma_iff_scalars sampleCollaborators .Cumulative ""
      [.histogram "h" sampleHistogram] _ rfl (by simp)).2 _ rfl
      (show ("\x7b\"histograms\":[]\x7d" : String) ≠ "" by decide)⟩⟩

end StatsJsonRender

namespace StatsJsonRender

theorem isScalar_consistent (call : JsonCall) (h : call.isScalar = true) : call.consistent := by
  cases call with
  | numeric _ _ => trivial
  | text _ _ => trivial
  | histogram _ _ => simp [JsonCall.isScalar] at h

theorem renderJson_scalars_only {env : Collaborators} {mode : HistogramBucketsMode}
    {calls : List JsonCall} {state : String × StatsJsonRender}
    (hrun : generateAll env (create "" mode) calls = .ok state) :
    renderJson env mode (calls.filter JsonCall.isScalar) = .ok (state.1 ++ "]\x7d") := by
  obtain ⟨scalars, hscalars⟩ := generateAll_total env (calls.filter JsonCall.isScalar)
    (create "" mode)
    (Or.inr fun call hcall => isScalar_consistent call (List.mem_filter.mp hcall).2)
  have hsink : scalars.1 = state.1 := by
    have h₁ := congrArg Prod.fst (generateAll_scalarRun _ hscalars)
    have h₂ := congrArg Prod.fst (generateAll_scalarRun _ hrun)
    simp only at h₁ h₂
    rw [h₁, h₂, scalarRun_filter]
  have harray : scalars.2.histogram_array_ = [] := by
    have hnames := (tracked_of_run hscalars).names
    have hnone : (calls.filter JsonCall.isScalar).filterMap JsonCall.histogramName = [] := by
      rw [List.filterMap_eq_nil_iff]
      intro call hcall
      have hs := (List.mem_filter.mp hcall).2
      cases call with
      | numeric _ _ => rfl
      | text _ _ => rfl
      | histogram _ _ => simp [JsonCall.isScalar] at hs
    rw [hnone] at hnames
    exact List.map_eq_nil_iff.mp hnames
  unfold renderJson
  rw [hscalars]
  simp only
  rw [finalize_of_empty_array env _ harray, hsink]

/-- C13. When histograms are buffered and the encoder returns the empty string,
`finalize` appends exactly `]}`: no comma, no part of the histogram block, and
what the sink held before stays in front; the final sink is what the scalar
calls of the same sequence, with no histogram at all, produce. -/
theorem finalize_encoder_empty (env : Collaborators) (mode : HistogramBucketsMode)
    (calls : List JsonCall) (state : String × StatsJsonRender)
    (hrun : generateAll env (create "" mode) calls = .ok state)
    (hbuffered : state.2.histogram_array_ ≠ [])
    (hempty : ∀ document, histogramsDocument env state.2 = .ok document →
      env.getJsonString document = "") :
    finalize env state.2 state.1 = .ok (state.1 ++ "]\x7d") ∧
      renderJson env mode calls = .ok (state.1 ++ "]\x7d") ∧
      renderJson env mode (calls.filter JsonCall.isScalar) = renderJson env mode calls := by
  have hdoc := histogramsDocument_tracked (tracked_of_run hrun) hbuffered
  have hfin : finalize env state.2 state.1 = .ok (state.1 ++ "]\x7d") := by
    rw [finalize_of_document hbuffered hdoc, if_pos (hempty _ hdoc)]
  have hfull : renderJson env mode calls = .ok (state.1 ++ "]\x7d") := by
    unfold renderJson
    rw [hrun]
    exact hfin
  exact ⟨hfin, hfull, by rw [hfull]; exact renderJson_scalars_only hrun⟩

theorem finalize_encoder_empty_witness :
    renderJson failingEncoderCollaborators .Disjoint
        [.numeric "a" 1, .histogram "h" sampleHistogram, .text "b" "x"] =
      .ok "\x7b\"stats\":[\x7b\"name\":\"a\",\"value\":1\x7d,\x7b\"name\":\"b\",\"value\":\"x\"\x7d]\x7d" ∧
    renderJson failingEncoderCollaborators .Disjoint [.numeric "a" 1, .text "b" "x"] =
      renderJson failingEncoderCollaborators .Disjoint
        [.numeric "a" 1, .histogram "h" sampleHistogram, .text "b" "x"] :=
  ⟨(finalize_encoder_empty failingEncoderCollaborators .Disjoint
      [.numeric "a" 1, .histogram "h" sampleHistogram, .text "b" "x"] _ rfl (List.ne_nil_of_length_pos (by decide))
      (fun _ _ => rfl)).2.1,
   (finalize_encoder_empty failingEncoderCollaborators .Disjoint
      [.numeric "a" 1, .histogram "h" sampleHistogram, .text "b" "x"] _ rfl (List.ne_nil_of_length_pos (by decide))
      (fun _ _ => rfl)).2.2⟩

/-- C14. With at least one histogram buffered, the message `finalize` hands to
the encoder is an object with the single key `histograms`; its value is, in
`NoBuckets` mode, an object with exactly the keys `supported_quantiles` (the
supported quantile ratios times 100, once) and `computed_quantiles` (all the
buffered entries), and in the bucket modes directly the list of all buffered
entries; the entries stand in the order of their `generate` calls. -/
theorem finalize_document_shape (env : Collaborators) (mode : HistogramBucketsMode)
    (response : String) (calls : List JsonCall) (state : String × StatsJsonRender)
    (hrun : generateAll env (create response mode) calls = .ok state)
    (hbuffered : state.2.histogram_array_ ≠ []) :
    let document : ProtoValue := .structValue [("histograms",
      if mode = .NoBuckets then
        .structValue
          [("supported_quantiles", .listValue (env.defaultSupportedQuantiles.map fun quantile =>
              .numberValue (env.timesHundred quantile))),
           ("computed_quantiles", .listValue state.2.histogram_array_)]
      else .listValue state.2.histogram_array_)]
    histogramsDocument env state.2 = .ok document ∧
      finalize env state.2 state.1 =
        .ok (if env.getJsonString document = "" then state.1 ++ "]\x7d"
          else state.1 ++ (state.2.delim_ ++ env.getJsonString document) ++ "]\x7d") ∧
      state.2.histogram_array_.map ProtoValue.entryName =
        (calls.filterMap JsonCall.histogramName).map some := by
  intro document
  have htracked := tracked_of_run hrun
  have hdoc : histogramsDocument env state.2 = .ok document :=
    histogramsDocument_tracked htracked hbuffered
  exact ⟨hdoc, finalize_of_document hbuffered hdoc, htracked.names⟩

theorem finalize_document_shape_witness :
    ∃ state, generateAll sampleCollaborators (create "" .NoBuckets)
        [.histogram "h1" sampleQuantileHistogram, .numeric "a" 1,
          .histogram "h2" sampleQuantileHistogram] = .ok state ∧
      state.2.histogram_array_.map ProtoValue.entryName = [some "h1", some "h2"] ∧
      ∃ entries, histogramsDocument sampleCollaborators state.2 =
        .ok (.structValue [("histograms", .structValue
          [("supported_quantiles", .listValue []), ("computed_quantiles", .listValue entries)])]) :=
  ⟨_, rfl,
   (finalize_document_shape sampleCollaborators .NoBuckets ""
      [.histogram "h1" sampleQuantileHistogram, .numeric "a" 1,
        .histogram "h2" sampleQuantileHistogram] _ rfl (List.ne_nil_of_length_pos (by decide))).2.2,
   _,
   (finalize_document_shape sampleCollaborators .NoBuckets ""
      [.histogram "h1" sampleQuantileHistogram, .numeric "a" 1,
        .histogram "h2" sampleQuantileHistogram] _ rfl (List.ne_nil_of_length_pos (by decide))).1⟩

/-- C20. In every state the JSON renderer reaches from construction by
`generate` calls, `found_used_histogram_` is set if and only if the mode is
`NoBuckets` and a histogram `generate` call has been made; hence, once the
histogram list is not empty, the mode assertion on the branch `finalize` takes
holds and the assembly of the message cannot fail. -/
theorem found_used_histogram_invariant (env : Collaborators) (mode : HistogramBucketsMode)
    (response : String) (calls : List JsonCall) (state : String × StatsJsonRender)
    (hrun : generateAll env (create response mode) calls = .ok state) :
    (state.2.found_used_histogram_ = true ↔
        (mode = .NoBuckets ∧ ∃ name histogram, JsonCall.histogram name histogram ∈ calls)) ∧
      state.2.histogram_buckets_mode_ = mode ∧
      (state.2.histogram_array_ ≠ [] →
        (state.2.found_used_histogram_ = true →
          (state.2.histogram_buckets_mode_ == .NoBuckets) = true) ∧
        (state.2.found_used_histogram_ = false →
          (state.2.histogram_buckets_mode_ != .NoBuckets) = true) ∧
        ∃ document, histogramsDocument env state.2 = .ok document) := by
  have htracked := tracked_of_run hrun
  refine ⟨htracked.flag, htracked.mode_eq, fun hne => ⟨?_, ?_, ?_⟩⟩
  · intro hf
    rw [htracked.mode_eq, (htracked.flag.mp hf).1]
    rfl
  · intro hf
    rw [htracked.mode_eq, bne_iff_ne]
    intro hm
    have := htracked.flag.mpr ⟨hm, (histogram_array_ne_nil_iff htracked).mp hne⟩
    rw [hf] at this
    exact absurd this (by simp)
  · exact ⟨_, histogramsDocument_tracked htracked hne⟩

theorem found_used_histogram_invariant_witness :
    ∃ state, generateAll sampleCollaborators (create "" .Disjoint)
        [.histogram "h" sampleHistogram, .text "b" "x"] = .ok state ∧
      state.2.found_used_histogram_ = false ∧
      ∃ document, histogramsDocument sampleCollaborators state.2 = .ok document :=
  ⟨_, rfl, rfl,
   ((found_used_histogram_invariant sampleCollaborators .Disjoint ""
      [.histogram "h" sampleHistogram, .text "b" "x"] _ rfl).2.2 (List.ne_nil_of_length_pos (by decide))).2.2⟩

end StatsJsonRender

/-! ## Text renderer: disjoint buckets -/

namespace StatsTextRender

theorem disjointLoop_eq (env : Collaborators) (supported_buckets : List Double)
    (disjoint_interval_buckets disjoint_cumulative_buckets : List Nat) :
    ∀ (remaining i : Nat) (bucket_summary : List String),
      i + remaining ≤ supported_buckets.length →
      i + remaining ≤ disjoint_interval_buckets.length →
      i + remaining ≤ disjoint_cumulative_buckets.length →
      forLoop (disjointBucketBody env supported_buckets disjoint_interval_buckets
          disjoint_cumulative_buckets) i remaining bucket_summary =
        .ok (bucket_summary ++ fragments i (List.zipWith (bucketText env)
          ((supported_buckets.drop i).take remaining)
          (List.zip ((disjoint_interval_buckets.drop i).take remaining)
            ((disjoint_cumulative_buckets.drop i).take remaining)))) := by
  intro remaining
  induction remaining with
  | zero => intro i bucket_summary _ _ _; simp [forLoop, fragments]
  | succ k ih =>
    intro i bucket_summary h₀ h₁ h₂
    have hi₀ : i < supported_buckets.length := by omega
    have hi₁ : i < disjoint_interval_buckets.length := by omega
    have hi₂ : i < disjoint_cumulative_buckets.length := by omega
    rw [forLoop]
    simp only [disjointBucketBody, vectorAt_ok supported_buckets hi₀,
      vectorAt_ok disjoint_interval_buckets hi₁, vectorAt_ok disjoint_cumulative_buckets hi₂,
      bind, Except.bind, pure, Except.pure]
    rw [ih (i + 1) _ (by omega) (by omega) (by omega), List.drop_eq_getElem_cons hi₀,
      List.drop_eq_getElem_cons hi₁, List.drop_eq_getElem_cons hi₂, List.take_succ_cons,
      List.take_succ_cons, List.take_succ_cons, List.zip_cons_cons, List.zipWith_cons_cons,
      fragments]
    by_cases hz : i = 0
    · subst hz
      simp [bucketText]
    · have hne : (i != 0) = true := by rw [bne_iff_ne]; exact hz
      simp [hne, bucketText]

theorem join_fragments_succ (i : Nat) (entries : List String) :
    String.join (fragments (i + 1) entries) = String.join (entries.map fun e => " " ++ e) := by
  induction entries generalizing i with
  | nil => rfl
  | cons e rest ih =>
    have hne : (i + 1 != 0) = true := by rw [bne_iff_ne]; omega
    rw [fragments, hne, if_pos rfl, List.map_cons, join_append, join_cons, join_cons, join_cons,
      join_nil, string_append_empty, ih (i + 1)]

theorem join_fragments_zero (entries : List String) :
    String.join (fragments 0 entries) = StrJoin entries " " := by
  cases entries with
  | nil => rfl
  | cons e rest =>
    rw [fragments, StrJoin_cons, join_append, join_fragments_succ]
    simp [join_cons, join_nil, string_append_empty]

theorem addDisjointBuckets_unused (env : Collaborators) (name response : String)
    {histogram : ParentHistogram} (h : histogram.used = false) :
    addDisjointBuckets env name histogram response =
      .ok (response ++ (name ++ ": No recorded values\n")) := by
  unfold addDisjointBuckets
  simp only [h, Bool.not_false, if_true, Buffer.addFragments, join_cons, join_nil,
    string_append_empty]

theorem addDisjointBuckets_used (env : Collaborators) (name response : String)
    {histogram : ParentHistogram} (h : histogram.used = true)
    (h₁ : histogram.intervalStatistics.computeDisjointBuckets.length =
      histogram.cumulativeStatistics.computeDisjointBuckets.length)
    (h₂ : histogram.cumulativeStatistics.computeDisjointBuckets.length =
      histogram.intervalStatistics.supportedBuckets.length) :
    addDisjointBuckets env name histogram response =
      .ok (response ++ (name ++ ": " ++
        StrJoin (List.zipWith (bucketText env) histogram.intervalStatistics.supportedBuckets
          (List.zip histogram.intervalStatistics.computeDisjointBuckets
            histogram.cumulativeStatistics.computeDisjointBuckets)) " " ++ "\n")) := by
  unfold addDisjointBuckets
  have a₁ : ASSERT env (histogram.intervalStatistics.computeDisjointBuckets.length ==
      histogram.cumulativeStatistics.computeDisjointBuckets.length) = .ok () := by
    rw [beq_iff_eq.mpr h₁]; exact ASSERT_true env
  have a₂ : ASSERT env (histogram.cumulativeStatistics.computeDisjointBuckets.length ==
      histogram.intervalStatistics.supportedBuckets.length) = .ok () := by
    rw [beq_iff_eq.mpr h₂]; exact ASSERT_true env
  have hmin : min histogram.intervalStatistics.computeDisjointBuckets.length
      (min histogram.cumulativeStatistics.computeDisjointBuckets.length
        histogram.intervalStatistics.supportedBuckets.length) =
      histogram.intervalStatistics.supportedBuckets.length := by omega
  have hloop := disjointLoop_eq env histogram.intervalStatistics.supportedBuckets
    histogram.intervalStatistics.computeDisjointBuckets
    histogram.cumulativeStatistics.computeDisjointBuckets
    histogram.intervalStatistics.supportedBuckets.length 0 [] (by omega) (by omega) (by omega)
  simp only [List.drop_zero, List.take_length, List.nil_append] at hloop
  rw [show histogram.intervalStatistics.supportedBuckets.length =
      histogram.intervalStatistics.computeDisjointBuckets.length by omega] at hloop
  rw [List.take_length] at hloop
  rw [show histogram.intervalStatistics.computeDisjointBuckets.length =
      histogram.cumulativeStatistics.computeDisjointBuckets.length by omega] at hloop
  rw [List.take_length] at hloop
  simp only [h, Bool.not_true, Bool.false_eq_true, if_false, bind, Except.bind, pure,
    Except.pure, a₁, a₂, hmin]
  rw [show histogram.intervalStatistics.supportedBuckets.length =
      histogram.cumulativeStatistics.computeDisjointBuckets.length by omega, hloop]
  simp only [Buffer.addFragments, join_append, join_cons, join_nil, string_append_empty,
    join_fragments_zero, String.append_assoc]

end StatsTextRender

namespace StatsTextRender

/-- C16, as stated, fails: for a used histogram with three supported boundaries
but a single disjoint count per window, the Disjoint-mode render does not write
one entry per supported boundary: with asserts compiled in it aborts, and with
asserts compiled out it writes the single entry `B0.5(2,2)`. -/
theorem addDisjointBuckets_every_boundary_fails :
    ¬ (∀ (env : Collaborators) (name response : String) (histogram : ParentHistogram),
        histogram.used = true →
        ∃ entries : List String,
          entries.length = histogram.intervalStatistics.supportedBuckets.length ∧
          generateHistogram env ⟨.Disjoint⟩ response name histogram =
            .ok (response ++ (name ++ ": " ++ StrJoin entries " " ++ "\n"))) ∧
      generateHistogram sampleCollaborators ⟨.Disjoint⟩ "" "h1" mismatchedHistogram =
        .error .assertionFailure ∧
      generateHistogram releaseCollaborators ⟨.Disjoint⟩ "" "h1" mismatchedHistogram =
        .ok "h1: B0.5(2,2)\n" := by
  refine ⟨fun claim => ?_, rfl, rfl⟩
  obtain ⟨entries, -, hout⟩ := claim sampleCollaborators "h1" "" mismatchedHistogram rfl
  have habort : generateHistogram sampleCollaborators ⟨.Disjoint⟩ "" "h1" mismatchedHistogram =
      .error .assertionFailure := rfl
  rw [habort] at hout
  exact absurd hout (by simp)

/-- C16, amended. In Disjoint mode the text renderer appends
`<name>: No recorded values` and a newline for a histogram that never recorded
a value; for a used histogram whose supported boundaries, interval disjoint
counts and cumulative disjoint counts are equally many it appends `<name>: `,
the entries `B<boundary>(<interval>,<cumulative>)` of the boundaries in order,
separated by single spaces, and a newline. -/
theorem addDisjointBuckets_output (env : Collaborators) (self : StatsTextRender)
    (name response : String) (histogram : ParentHistogram)
    (hmode : self.histogram_buckets_mode_ = .Disjoint) :
    (histogram.used = false →
      generateHistogram env self response name histogram =
        .ok (response ++ (name ++ ": No recorded values\n"))) ∧
    (histogram.used = true →
      histogram.intervalStatistics.computeDisjointBuckets.length =
        histogram.intervalStatistics.supportedBuckets.length →
      histogram.cumulativeStatistics.computeDisjointBuckets.length =
        histogram.intervalStatistics.supportedBuckets.length →
      generateHistogram env self response name histogram =
        .ok (response ++ (name ++ ": " ++
          StrJoin
            (List.zipWith
              (fun boundary (counts : Nat × Nat) =>
                "B" ++ env.formatG boundary ++ "(" ++ decimal counts.1 ++ "," ++
                  decimal counts.2 ++ ")")
              histogram.intervalStatistics.supportedBuckets
              (List.zip histogram.intervalStatistics.computeDisjointBuckets
                histogram.cumulativeStatistics.computeDisjointBuckets)) " " ++ "\n"))) := by
  unfold generateHistogram
  rw [hmode]
  refine ⟨fun h => addDisjointBuckets_unused env name response h, fun h h₁ h₂ => ?_⟩
  exact addDisjointBuckets_used env name response h (by omega) (by omega)

theorem addDisjointBuckets_output_witness :
    generateHistogram sampleCollaborators ⟨.Disjoint⟩ "" "h1"
        { sampleHistogram with used := false } = .ok "h1: No recorded values\n" ∧
      generateHistogram sampleCollaborators ⟨.Disjoint⟩ "" "h1" sampleHistogram =
        .ok "h1: B0.5(2,2) B1(3,3) B5(2,2)\n" :=
  ⟨(addDisjointBuckets_output sampleCollaborators ⟨.Disjoint⟩ "h1" ""
      { sampleHistogram with used := false } rfl).1 rfl,
   (addDisjointBuckets_output sampleCollaborators ⟨.Disjoint⟩ "h1" "" sampleHistogram rfl).2
      rfl rfl rfl⟩

end StatsTextRender

/-! ## Mismatched histogram vectors -/

theorem ASSERT_false {env : Collaborators} (h : env.assertsEnabled = true) :
    ASSERT env false = .error .assertionFailure := by
  simp [ASSERT, h]

theorem forLoop_fault {σ : Type} (body : Nat → σ → Except Fault σ)
    (hbody : ∀ j s, body j s ≠ .error .assertionFailure) :
    ∀ (remaining i : Nat) (s : σ), forLoop body i remaining s ≠ .error .assertionFailure := by
  intro remaining
  induction remaining with
  | zero => intro i s; simp [forLoop]
  | succ k ih =>
    intro i s
    rw [forLoop]
    cases hstep : body i s with
    | ok s' => exact ih (i + 1) s'
    | error e =>
      intro h
      simp only [Except.error.injEq] at h
      exact hbody i s (by rw [hstep, h])

theorem vectorAt_fault {α : Type} (v : List α) (i : Nat) :
    vectorAt v i ≠ .error .assertionFailure := by
  unfold vectorAt
  cases v[i]? <;> simp

theorem StatsTextRender.addDisjointBuckets_mismatch {env : Collaborators}
    (hasserts : env.assertsEnabled = true) (name response : String)
    {histogram : ParentHistogram} (hused : histogram.used = true)
    (hmismatch : ¬ (histogram.intervalStatistics.computeDisjointBuckets.length =
        histogram.cumulativeStatistics.computeDisjointBuckets.length ∧
      histogram.cumulativeStatistics.computeDisjointBuckets.length =
        histogram.intervalStatistics.supportedBuckets.length)) :
    StatsTextRender.addDisjointBuckets env name histogram response =
      .error .assertionFailure := by
  unfold StatsTextRender.addDisjointBuckets
  simp only [hused, Bool.not_true, Bool.false_eq_true, if_false, bind, Except.bind]
  by_cases h₁ : histogram.intervalStatistics.computeDisjointBuckets.length =
      histogram.cumulativeStatistics.computeDisjointBuckets.length
  · have h₂ : ¬ histogram.cumulativeStatistics.computeDisjointBuckets.length =
        histogram.intervalStatistics.supportedBuckets.length := fun h₂ => hmismatch ⟨h₁, h₂⟩
    rw [beq_iff_eq.mpr h₁, ASSERT_true]
    simp only
    rw [show (histogram.cumulativeStatistics.computeDisjointBuckets.length ==
      histogram.intervalStatistics.supportedBuckets.length) = false from beq_eq_false_iff_ne.mpr h₂,
      ASSERT_false hasserts]
  · rw [show (histogram.intervalStatistics.computeDisjointBuckets.length ==
      histogram.cumulativeStatistics.computeDisjointBuckets.length) = false from
        beq_eq_false_iff_ne.mpr h₁, ASSERT_false hasserts]

theorem StatsJsonRender.collectBuckets_mismatch {env : Collaborators}
    (hasserts : env.assertsEnabled = true) (self : StatsJsonRender) (name : String)
    (histogram : ParentHistogram) {interval_buckets cumulative_buckets : List Nat}
    (hmismatch : ¬ (interval_buckets.length = cumulative_buckets.length ∧
      cumulative_buckets.length = histogram.intervalStatistics.supportedBuckets.length)) :
    StatsJsonRender.collectBuckets env self name histogram interval_buckets cumulative_buckets =
      .error .assertionFailure := by
  unfold StatsJsonRender.collectBuckets
  simp only [bind, Except.bind]
  by_cases h₁ : interval_buckets.length = cumulative_buckets.length
  · have h₂ : ¬ cumulative_buckets.length =
        histogram.intervalStatistics.supportedBuckets.length := fun h₂ => hmismatch ⟨h₁, h₂⟩
    rw [beq_iff_eq.mpr h₁, ASSERT_true]
    simp only
    rw [show (cumulative_buckets.length ==
      histogram.intervalStatistics.supportedBuckets.length) = false from
        beq_eq_false_iff_ne.mpr h₂, ASSERT_false hasserts]
  · rw [show (interval_buckets.length == cumulative_buckets.length) = false from
      beq_eq_false_iff_ne.mpr h₁, ASSERT_false hasserts]

theorem PrometheusStatsRender.generateHistogramOutput_fault (env : Collaborators)
    (metric : Histogram) (name : String) :
    PrometheusStatsRender.generateHistogramOutput env metric name ≠
      .error .assertionFailure := by
  unfold PrometheusStatsRender.generateHistogramOutput
  cases metric with
  | other tags => simp
  | parent histogram =>
    simp only [bind, Except.bind, pure, Except.pure]
    split
    · rename_i e hloop
      intro h
      simp only [Except.error.injEq] at h
      refine forLoop_fault _ ?_ _ _ _ (by rw [hloop, h])
      intro j s
      unfold PrometheusStatsRender.histogramBucketBody
      simp only [bind, Except.bind, pure, Except.pure]
      cases h₁ : vectorAt histogram.cumulativeStatistics.supportedBuckets j with
      | error e₁ =>
        intro h'
        simp only [Except.error.injEq] at h'
        exact vectorAt_fault _ _ (by rw [h₁, h'])
      | ok b =>
        cases h₂ : vectorAt histogram.cumulativeStatistics.computedBuckets j with
        | error e₂ =>
          intro h'
          simp only [Except.error.injEq] at h'
          exact vectorAt_fault _ _ (by rw [h₂, h'])
        | ok v => simp
    · simp

/-- C19, as stated, fails: with asserts compiled in, a never-used histogram
whose interval vectors are empty while boundaries and cumulative counts number
three gets its `No recorded values` line from the text Disjoint render, and the
Prometheus histogram output renders the same vectors in full; neither
aborts. -/
theorem mismatch_always_aborts_fails :
    ¬ (∀ (env : Collaborators) (self : StatsTextRender) (response name : String)
        (histogram : ParentHistogram),
        self.histogram_buckets_mode_ = .Disjoint →
        ¬ (histogram.intervalStatistics.computeDisjointBuckets.length =
            histogram.cumulativeStatistics.computeDisjointBuckets.length ∧
          histogram.cumulativeStatistics.computeDisjointBuckets.length =
            histogram.intervalStatistics.supportedBuckets.length) →
        ∃ fault, StatsTextRender.generateHistogram env self response name histogram =
          .error fault) ∧
      StatsTextRender.generateHistogram sampleCollaborators ⟨.Disjoint⟩ "" "h1"
          { intervalMismatchHistogram with used := false } =
        .ok "h1: No recorded values\n" ∧
      PrometheusStatsRender.generateHistogramOutput sampleCollaborators
          (.parent intervalMismatchHistogram) "envoy_h" =
        .ok ("envoy_h_bucket\x7bzone=\"a\",le=\"0.5\"\x7d 2\n" ++
          "envoy_h_bucket\x7bzone=\"a\",le=\"1\"\x7d 5\n" ++
          "envoy_h_bucket\x7bzone=\"a\",le=\"5\"\x7d 7\n" ++
          "envoy_h_bucket\x7bzone=\"a\",le=\"+Inf\"\x7d 8\n" ++
          "envoy_h_sum\x7bzone=\"a\"\x7d 12.5\n" ++
          "envoy_h_count\x7bzone=\"a\"\x7d 8\n") := by
  refine ⟨fun claim => ?_, rfl, rfl⟩
  obtain ⟨fault, hfault⟩ := claim sampleCollaborators ⟨.Disjoint⟩ "" "h1"
    { intervalMismatchHistogram with used := false } rfl (by decide)
  have hok : StatsTextRender.generateHistogram sampleCollaborators ⟨.Disjoint⟩ "" "h1"
      { intervalMismatchHistogram with used := false } = .ok "h1: No recorded values\n" := rfl
  rw [hok] at hfault
  exact absurd hfault (by simp)

/-- C19, amended. With asserts compiled in, the text Disjoint render of a used
histogram and the JSON Cumulative and Disjoint renders abort with an assertion
failure, producing no bucket entry, whenever the supported boundaries, the
interval counts and the cumulative counts they read are not equally many.  The
text render of a never-used histogram writes `No recorded values` without
looking at the vectors, and the Prometheus histogram output does not read the
interval statistics. -/
theorem mismatch_aborts_with_asserts (env : Collaborators) :
    (env.assertsEnabled = true →
      (∀ (self : StatsTextRender) (response name : String) (histogram : ParentHistogram),
        self.histogram_buckets_mode_ = .Disjoint → histogram.used = true →
        ¬ (histogram.intervalStatistics.computeDisjointBuckets.length =
            histogram.cumulativeStatistics.computeDisjointBuckets.length ∧
          histogram.cumulativeStatistics.computeDisjointBuckets.length =
            histogram.intervalStatistics.supportedBuckets.length) →
        StatsTextRender.generateHistogram env self response name histogram =
          .error .assertionFailure) ∧
      (∀ (self : StatsJsonRender) (response name : String) (histogram : ParentHistogram),
        self.histogram_buckets_mode_ = .Cumulative →
        ¬ (histogram.intervalStatistics.computedBuckets.length =
            histogram.cumulativeStatistics.computedBuckets.length ∧
          histogram.cumulativeStatistics.computedBuckets.length =
            histogram.intervalStatistics.supportedBuckets.length) →
        StatsJsonRender.generateHistogram env self response name histogram =
          .error .assertionFailure) ∧
      (∀ (self : StatsJsonRender) (response name : String) (histogram : ParentHistogram),
        self.histogram_buckets_mode_ = .Disjoint →
        ¬ (histogram.intervalStatistics.computeDisjointBuckets.length =
            histogram.cumulativeStatistics.computeDisjointBuckets.length ∧
          histogram.cumulativeStatistics.computeDisjointBuckets.length =
            histogram.intervalStatistics.supportedBuckets.length) →
        StatsJsonRender.generateHistogram env self response name histogram =
          .error .assertionFailure)) ∧
    (∀ (self : StatsTextRender) (response name : String) (histogram : ParentHistogram),
      self.histogram_buckets_mode_ = .Disjoint → histogram.used = false →
      StatsTextRender.generateHistogram env self response name histogram =
        .ok (response ++ (name ++ ": No recorded values\n"))) ∧
    (∀ (histogram : ParentHistogram) (statistics : HistogramStatistics) (name : String),
      PrometheusStatsRender.generateHistogramOutput env
          (.parent { histogram with intervalStatistics := statistics }) name =
        PrometheusStatsRender.generateHistogramOutput env (.parent histogram) name) := by
  refine ⟨fun hasserts => ⟨?_, ?_, ?_⟩, ?_, ?_⟩
  · intro self response name histogram hmode hused hmismatch
    unfold StatsTextRender.generateHistogram
    rw [hmode]
    exact StatsTextRender.addDisjointBuckets_mismatch hasserts name response hused hmismatch
  · intro self response name histogram hmode hmismatch
    unfold StatsJsonRender.generateHistogram
    rw [hmode]
    simp only
    rw [StatsJsonRender.collectBuckets_mismatch hasserts self name histogram hmismatch]
    rfl
  · intro self response name histogram hmode hmismatch
    unfold StatsJsonRender.generateHistogram
    rw [hmode]
    simp only
    rw [StatsJsonRender.collectBuckets_mismatch hasserts self name histogram hmismatch]
    rfl
  · intro self response name histogram hmode hused
    unfold StatsTextRender.generateHistogram
    rw [hmode]
    exact StatsTextRender.addDisjointBuckets_unused env name response hused
  · intro histogram statistics name
    rfl

theorem mismatch_aborts_with_asserts_witness :
    StatsTextRender.generateHistogram sampleCollaborators ⟨.Disjoint⟩ "" "h1"
        mismatchedHistogram = .error .assertionFailure ∧
      StatsJsonRender.generateHistogram sampleCollaborators
        (StatsJsonRender.create "" .Cumulative).2 "" "h1" intervalMismatchHistogram =
        .error .assertionFailure ∧
      StatsJsonRender.generateHistogram sampleCollaborators
        (StatsJsonRender.create "" .Disjoint).2 "" "h1" mismatchedHistogram =
        .error .assertionFailure :=
  ⟨((mismatch_aborts_with_asserts sampleCollaborators).1 rfl).1 ⟨.Disjoint⟩ "" "h1"
      mismatchedHistogram rfl rfl (by decide),
   ((mismatch_aborts_with_asserts sampleCollaborators).1 rfl).2.1
      (StatsJsonRender.create "" .Cumulative).2 "" "h1" intervalMismatchHistogram rfl (by decide),
   ((mismatch_aborts_with_asserts sampleCollaborators).1 rfl).2.2
      (StatsJsonRender.create "" .Disjoint).2 "" "h1" mismatchedHistogram rfl (by decide)⟩

/-! ## Prometheus renderer: tags -/

theorem intercalate_go (separator : String) (parts : List String) :
    ∀ acc : String, String.intercalate.go acc separator parts =
      acc ++ String.join (parts.map fun x => separator ++ x) := by
  induction parts with
  | nil => intro acc; simp [String.intercalate.go, join_nil, string_append_empty]
  | cons a rest ih =>
    intro acc
    rw [String.intercalate.go, ih, List.map_cons, join_cons]
    simp only [String.append_assoc]

theorem StrJoin_eq_intercalate (parts : List String) (separator : String) :
    StrJoin parts separator = separator.intercalate parts := by
  cases parts with
  | nil => rfl
  | cons a rest => rw [StrJoin_cons, String.intercalate, intercalate_go]

namespace PrometheusStatsRender

theorem formattedTags_eq_empty_iff (tags : List Tag) : formattedTags tags = "" ↔ tags = [] := by
  constructor
  · intro h
    cases tags with
    | nil => rfl
    | cons tag rest =>
      exfalso
      unfold formattedTags at h
      rw [List.map_cons, StrJoin_cons] at h
      have hdata := congrArg String.data h
      simp only [String.data_append] at hdata
      have hlen := congrArg List.length hdata
      simp at hlen
  · intro h
    rw [h]
    rfl

/-- C22. `formattedTags` is the texts `<sanitizeName(name)>="<sanitizeValue(value)>"`
of the tags in their given order, joined by single commas with no leading or
trailing comma; it is empty exactly when there is no tag, and appending a tag
to a non-empty list appends a comma and that tag's text. -/
theorem formattedTags_joined (tags : List Tag) (tag : Tag) :
    formattedTags tags =
        ",".intercalate (tags.map fun t =>
          sanitizeName t.name_ ++ "=\"" ++ sanitizeValue t.value_ ++ "\"") ∧
      formattedTags [tag] = sanitizeName tag.name_ ++ "=\"" ++ sanitizeValue tag.value_ ++ "\"" ∧
      (formattedTags tags = "" ↔ tags = []) ∧
      (tags ≠ [] →
        formattedTags (tags ++ [tag]) = formattedTags tags ++ "," ++ formattedTags [tag]) := by
  refine ⟨StrJoin_eq_intercalate _ _, rfl, formattedTags_eq_empty_iff tags, fun hne => ?_⟩
  rw [formattedTags_append_singleton, if_neg hne]
  simp only [formattedTags, List.map_cons, List.map_nil, StrJoin, String.append_assoc]

theorem formattedTags_joined_witness :
    formattedTags [⟨"zone", "a"⟩, ⟨"host.name", "x\"y"⟩] = "zone=\"a\",host_name=\"x\\\"y\"" :=
  (formattedTags_joined [⟨"zone", "a"⟩] ⟨"host.name", "x\"y"⟩).2.2.2 (by simp)

theorem unescapeFrom_flatten (l : List Char) :
    unescapeFrom false (l.map fun c => (escapeChar c).data).flatten = l := by
  induction l with
  | nil => rfl
  | cons c rest ih =>
    rw [List.map_cons, List.flatten_cons, escapeChar_data]
    by_cases h₁ : c = '\\'
    · subst h₁
      simp [unescapeFrom, ih]
    · by_cases h₂ : c = '\n'
      · subst h₂
        simp [unescapeFrom, ih]
      · by_cases h₃ : c = '"'
        · subst h₃
          simp [unescapeFrom, ih]
        · simp [h₁, h₂, h₃, unescapeFrom, ih]

theorem unescape_sanitizeValue (v : String) : unescape (sanitizeValue v) = v := by
  apply string_eq_of_data
  show unescapeFrom false (sanitizeValue v).data = v.data
  rw [sanitizeValue_data]
  exact unescapeFrom_flatten v.data

/-- C23. `sanitizeValue` has a left inverse, the left-to-right unescape that
maps backslash-backslash to a backslash, backslash-`n` to a newline and
backslash-quote to a double quote; hence it is injective: two distinct tag
values never render to the same escaped text. -/
theorem sanitizeValue_injective :
    (∀ v : String, unescape (sanitizeValue v) = v) ∧
      Function.Injective sanitizeValue ∧
      unescape "\\\\" = "\\" ∧ unescape "\\n" = "\n" ∧ unescape "\\\"" = "\"" := by
  refine ⟨unescape_sanitizeValue, ?_, by decide, by decide, by decide⟩
  intro a b h
  rw [← unescape_sanitizeValue a, ← unescape_sanitizeValue b, h]

end PrometheusStatsRender

/-! ## Bucket renders on equally long vectors -/

theorem forLoop_index_bound {σ : Type} (body : Nat → σ → Except Fault σ) :
    ∀ (remaining i : Nat) (s : σ),
      forLoop body i remaining s =
        forLoop (fun j t => if j < i + remaining then body j t else .error .outOfRange)
          i remaining s := by
  intro remaining
  induction remaining with
  | zero => intro i s; rfl
  | succ k ih =>
    intro i s
    rw [forLoop, forLoop]
    have hlt : i < i + (k + 1) := by omega
    simp only [hlt, if_true]
    cases body i s with
    | error e => rfl
    | ok s' =>
      simp only
      rw [ih (i + 1) s']
      have hbound : i + 1 + k = i + (k + 1) := by omega
      rw [hbound]

theorem StatsJsonRender.collectLoop_eq (env : Collaborators) (supported_buckets : List Double)
    (interval_buckets cumulative_buckets : List Nat) :
    ∀ (remaining i : Nat) (bucket_array : List ProtoValue),
      i + remaining ≤ supported_buckets.length →
      i + remaining ≤ interval_buckets.length →
      i + remaining ≤ cumulative_buckets.length →
      forLoop (StatsJsonRender.collectBody env supported_buckets interval_buckets
          cumulative_buckets) i remaining bucket_array =
        .ok (bucket_array ++ List.zipWith (StatsJsonRender.bucketValue env)
          ((supported_buckets.drop i).take remaining)
          (List.zip ((interval_buckets.drop i).take remaining)
            ((cumulative_buckets.drop i).take remaining))) := by
  intro remaining
  induction remaining with
  | zero => intro i bucket_array _ _ _; simp [forLoop]
  | succ k ih =>
    intro i bucket_array h₀ h₁ h₂
    have hi₀ : i < supported_buckets.length := by omega
    have hi₁ : i < interval_buckets.length := by omega
    have hi₂ : i < cumulative_buckets.length := by omega
    rw [forLoop]
    simp only [StatsJsonRender.collectBody, vectorAt_ok supported_buckets hi₀,
      vectorAt_ok interval_buckets hi₁, vectorAt_ok cumulative_buckets hi₂,
      bind, Except.bind, pure, Except.pure]
    rw [ih (i + 1) _ (by omega) (by omega) (by omega), List.drop_eq_getElem_cons hi₀,
      List.drop_eq_getElem_cons hi₁, List.drop_eq_getElem_cons hi₂, List.take_succ_cons,
      List.take_succ_cons, List.take_succ_cons, List.zip_cons_cons, List.zipWith_cons_cons,
      List.append_assoc]
    simp [StatsJsonRender.bucketValue, ProtoMap.set]

theorem StatsJsonRender.collectBuckets_exact (env : Collaborators) (self : StatsJsonRender)
    (name : String) (histogram : ParentHistogram) (interval_buckets cumulative_buckets : List Nat)
    (h₁ : interval_buckets.length = histogram.intervalStatistics.supportedBuckets.length)
    (h₂ : cumulative_buckets.length = histogram.intervalStatistics.supportedBuckets.length) :
    StatsJsonRender.collectBuckets env self name histogram interval_buckets cumulative_buckets =
      .ok { self with
        histogram_array_ := self.histogram_array_ ++
          [.structValue [("name", .stringValue name), ("buckets", .listValue
            (List.zipWith (StatsJsonRender.bucketValue env)
              histogram.intervalStatistics.supportedBuckets
              (List.zip interval_buckets cumulative_buckets)))]] } := by
  unfold StatsJsonRender.collectBuckets
  have a₁ : ASSERT env (interval_buckets.length == cumulative_buckets.length) = .ok () := by
    rw [beq_iff_eq.mpr (by omega)]; exact ASSERT_true env
  have a₂ : ASSERT env (cumulative_buckets.length ==
      histogram.intervalStatistics.supportedBuckets.length) = .ok () := by
    rw [beq_iff_eq.mpr h₂]; exact ASSERT_true env
  have hmin : min interval_buckets.length (min cumulative_buckets.length
      histogram.intervalStatistics.supportedBuckets.length) =
      histogram.intervalStatistics.supportedBuckets.length := by omega
  have hloop := StatsJsonRender.collectLoop_eq env histogram.intervalStatistics.supportedBuckets
    interval_buckets cumulative_buckets histogram.intervalStatistics.supportedBuckets.length 0 []
    (by omega) (by omega) (by omega)
  simp only [List.drop_zero, List.take_length, List.nil_append] at hloop
  rw [← h₁, List.take_length, h₁, ← h₂, List.take_length, h₂] at hloop
  simp only [bind, Except.bind, pure, Except.pure, a₁, a₂, hmin, hloop]
  simp [ProtoMap.set]

theorem PrometheusStatsRender.generateHistogramOutput_exact (env : Collaborators)
    (histogram : ParentHistogram) (name : String)
    (hlen : histogram.cumulativeStatistics.supportedBuckets.length =
      histogram.cumulativeStatistics.computedBuckets.length) :
    PrometheusStatsRender.generateHistogramOutput env (.parent histogram) name =
      .ok (String.join
        (List.zipWith
          (fun bucket value => name ++ "_bucket\x7b" ++
            (if histogram.tags.isEmpty = true then ""
              else PrometheusStatsRender.formattedTags histogram.tags ++ ",") ++ "le=\"" ++
            env.formatG32 bucket ++ "\"\x7d " ++ decimal value ++ "\n")
          histogram.cumulativeStatistics.supportedBuckets
          histogram.cumulativeStatistics.computedBuckets ++
        [name ++ "_bucket\x7b" ++
            (if histogram.tags.isEmpty = true then ""
              else PrometheusStatsRender.formattedTags histogram.tags ++ ",") ++
            "le=\"+Inf\"\x7d " ++ decimal histogram.cumulativeStatistics.sampleCount ++ "\n",
         name ++ "_sum\x7b" ++ PrometheusStatsRender.formattedTags histogram.tags ++ "\x7d " ++
            env.formatG32 histogram.cumulativeStatistics.sampleSum ++ "\n",
         name ++ "_count\x7b" ++ PrometheusStatsRender.formattedTags histogram.tags ++ "\x7d " ++
            decimal histogram.cumulativeStatistics.sampleCount ++ "\n"])) := by
  unfold PrometheusStatsRender.generateHistogramOutput
  simp only [bind, Except.bind, pure, Except.pure]
  rw [PrometheusStatsRender.histogramBucketLoop env name _ _ _ hlen _ 0 "" (by simp)]
  simp only [List.drop_zero, String.empty_append, join_append, join_cons, join_nil,
    string_append_empty, String.append_assoc]

/-- C21, as stated, fails: the sample histogram before any recording has three
supported boundaries and three counts in every vector, and yet
`addDisjointBuckets` emits no bucket entry for it, only the line
`h1: No recorded values`. -/
theorem every_render_emits_entries_fails :
    ¬ (∀ (env : Collaborators) (name response : String) (histogram : ParentHistogram),
        histogram.intervalStatistics.computeDisjointBuckets.length =
          histogram.intervalStatistics.supportedBuckets.length →
        histogram.cumulativeStatistics.computeDisjointBuckets.length =
          histogram.intervalStatistics.supportedBuckets.length →
        StatsTextRender.addDisjointBuckets env name histogram response =
          .ok (response ++ (name ++ ": " ++
            StrJoin (List.zipWith (StatsTextRender.bucketText env)
              histogram.intervalStatistics.supportedBuckets
              (List.zip histogram.intervalStatistics.computeDisjointBuckets
                histogram.cumulativeStatistics.computeDisjointBuckets)) " " ++ "\n"))) ∧
      unusedHistogram.intervalStatistics.supportedBuckets.length = 3 ∧
      StatsTextRender.addDisjointBuckets sampleCollaborators "h1" unusedHistogram "" =
        .ok "h1: No recorded values\n" := by
  refine ⟨fun claim => ?_, rfl, rfl⟩
  have h := claim sampleCollaborators "h1" "" unusedHistogram rfl rfl
  have hactual : StatsTextRender.addDisjointBuckets sampleCollaborators "h1" unusedHistogram "" =
      .ok "h1: No recorded values\n" := rfl
  rw [hactual] at h
  have hexpected : ("" ++ ("h1" ++ ": " ++
      StrJoin (List.zipWith (StatsTextRender.bucketText sampleCollaborators)
        unusedHistogram.intervalStatistics.supportedBuckets
        (List.zip unusedHistogram.intervalStatistics.computeDisjointBuckets
          unusedHistogram.cumulativeStatistics.computeDisjointBuckets)) " " ++ "\n") : String) =
      "h1: B0.5(2,2) B1(3,3) B5(2,2)\n" := by decide
  rw [hexpected] at h
  exact absurd (Except.ok.inj h) (by decide)

/-- C21, amended. When the supported boundaries and the two count vectors a
bucket render reads are equally many, `n`, the render returns without an
out-of-range read or a failed assertion, whether asserts are compiled in or
not, and emits exactly `n` bucket entries, one per supported boundary in
boundary order: `addDisjointBuckets` for a histogram that has recorded a value,
`collectBuckets`, and `generateHistogramOutput` (which reads the cumulative
boundaries and counts).  Each loop asks for indices below `n` only.  For a
histogram that never recorded a value `addDisjointBuckets` reads no vector and
emits no bucket entry. -/
theorem bucket_renders_in_range (env : Collaborators) (histogram : ParentHistogram)
    (name : String) :
    (∀ response : String, histogram.used = true →
      histogram.intervalStatistics.computeDisjointBuckets.length =
        histogram.intervalStatistics.supportedBuckets.length →
      histogram.cumulativeStatistics.computeDisjointBuckets.length =
        histogram.intervalStatistics.supportedBuckets.length →
      let entries := List.zipWith
        (fun boundary (counts : Nat × Nat) =>
          "B" ++ env.formatG boundary ++ "(" ++ decimal counts.1 ++ "," ++
            decimal counts.2 ++ ")")
        histogram.intervalStatistics.supportedBuckets
        (List.zip histogram.intervalStatistics.computeDisjointBuckets
          histogram.cumulativeStatistics.computeDisjointBuckets)
      StatsTextRender.addDisjointBuckets env name histogram response =
          .ok (response ++ (name ++ ": " ++ StrJoin entries " " ++ "\n")) ∧
        entries.length = histogram.intervalStatistics.supportedBuckets.length) ∧
    (∀ (self : StatsJsonRender) (interval_buckets cumulative_buckets : List Nat),
      interval_buckets.length = histogram.intervalStatistics.supportedBuckets.length →
      cumulative_buckets.length = histogram.intervalStatistics.supportedBuckets.length →
      let buckets := List.zipWith
        (fun upper_bound (counts : Nat × Nat) => ProtoValue.structValue
          [("upper_bound", .numberValue upper_bound),
           ("interval", .numberValue (env.toDouble counts.1)),
           ("cumulative", .numberValue (env.toDouble counts.2))])
        histogram.intervalStatistics.supportedBuckets
        (List.zip interval_buckets cumulative_buckets)
      StatsJsonRender.collectBuckets env self name histogram interval_buckets
          cumulative_buckets =
          .ok { self with
            histogram_array_ := self.histogram_array_ ++
              [.structValue [("name", .stringValue name), ("buckets", .listValue buckets)]] } ∧
        buckets.length = histogram.intervalStatistics.supportedBuckets.length) ∧
    (histogram.cumulativeStatistics.computedBuckets.length =
        histogram.cumulativeStatistics.supportedBuckets.length →
      let labels := if histogram.tags = [] then ""
        else PrometheusStatsRender.formattedTags histogram.tags ++ ","
      let lines := List.zipWith
        (fun bucket value => name ++ "_bucket\x7b" ++ labels ++ "le=\"" ++
          env.formatG32 bucket ++ "\"\x7d " ++ decimal value ++ "\n")
        histogram.cumulativeStatistics.supportedBuckets
        histogram.cumulativeStatistics.computedBuckets
      (∃ tail, tail.length = 3 ∧
        PrometheusStatsRender.generateHistogramOutput env (.parent histogram) name =
          .ok (String.join (lines ++ tail))) ∧
        lines.length = histogram.cumulativeStatistics.supportedBuckets.length) ∧
    (∀ (σ : Type) (body : Nat → σ → Except Fault σ) (n : Nat) (s : σ),
      forLoop body 0 n s =
        forLoop (fun i t => if i < n then body i t else .error .outOfRange) 0 n s) ∧
    (∀ response : String, histogram.used = false →
      StatsTextRender.addDisjointBuckets env name histogram response =
        .ok (response ++ (name ++ ": No recorded values\n"))) := by
  refine ⟨?_, ?_, ?_, ?_, ?_⟩
  · intro response hused h₁ h₂ entries
    refine ⟨StatsTextRender.addDisjointBuckets_used env name response hused (by omega) h₂, ?_⟩
    simp only [entries, List.length_zipWith, List.length_zip]
    omega
  · intro self interval_buckets cumulative_buckets h₁ h₂ buckets
    refine ⟨StatsJsonRender.collectBuckets_exact env self name histogram interval_buckets
      cumulative_buckets h₁ h₂, ?_⟩
    simp only [buckets, List.length_zipWith, List.length_zip]
    omega
  · intro hlen labels lines
    refine ⟨⟨[name ++ "_bucket\x7b" ++ labels ++ "le=\"+Inf\"\x7d " ++
          decimal histogram.cumulativeStatistics.sampleCount ++ "\n",
        name ++ "_sum\x7b" ++ PrometheusStatsRender.formattedTags histogram.tags ++ "\x7d " ++
          env.formatG32 histogram.cumulativeStatistics.sampleSum ++ "\n",
        name ++ "_count\x7b" ++ PrometheusStatsRender.formattedTags histogram.tags ++ "\x7d " ++
          decimal histogram.cumulativeStatistics.sampleCount ++ "\n"], rfl, ?_⟩, ?_⟩
    · rw [PrometheusStatsRender.generateHistogramOutput_exact env histogram name hlen.symm]
      simp only [lines, labels, List.isEmpty_iff]
    · simp only [lines, List.length_zipWith]
      omega
  · intro σ body n s
    have := forLoop_index_bound body n 0 s
    simpa using this
  · intro response hused
    exact StatsTextRender.addDisjointBuckets_unused env name response hused

theorem bucket_renders_in_range_witness :
    StatsTextRender.addDisjointBuckets sampleCollaborators "h1" sampleHistogram "" =
        .ok "h1: B0.5(2,2) B1(3,3) B5(2,2)\n" ∧
      (∃ after, StatsJsonRender.collectBuckets sampleCollaborators
          (StatsJsonRender.create "" .Cumulative).2 "h1" sampleHistogram [1, 2, 3] [2, 5, 7] =
        .ok after) ∧
      ∃ tail, tail.length = 3 ∧
        PrometheusStatsRender.generateHistogramOutput sampleCollaborators
            (.parent sampleHistogram) "envoy_h" =
          .ok (String.join
            (["envoy_h_bucket\x7bzone=\"a\",le=\"0.5\"\x7d 2\n",
              "envoy_h_bucket\x7bzone=\"a\",le=\"1\"\x7d 5\n",
              "envoy_h_bucket\x7bzone=\"a\",le=\"5\"\x7d 7\n"] ++ tail)) :=
  ⟨((bucket_renders_in_range sampleCollaborators sampleHistogram "h1").1 "" rfl rfl rfl).1,
   ⟨_, ((bucket_renders_in_range sampleCollaborators sampleHistogram "h1").2.1
      (StatsJsonRender.create "" .Cumulative).2 [1, 2, 3] [2, 5, 7] rfl rfl).1⟩,
   ((bucket_renders_in_range sampleCollaborators sampleHistogram "envoy_h").2.2.1 rfl).1⟩

end Envoy
